import Mathlib

/-!
The authentication controllers of nutri-api.

A shallow embedding of `src/controllers/auth.controller.js` (the three Express
handlers `registerController`, `loginController`, `checkEmailController`) and
theorems about their responses and about the remote calls they issue.

Modelling conventions
* JavaScript values are the data values of `JsVal` (what `express.json()` and the
  Supabase client hand to the handlers).  Numbers are integers.
* The Supabase client is a transition function on an arbitrary provider state:
  every awaited call is one `Call`, answered by a value or by a rejection.
* Every handler returns the HTTP response together with the list of remote calls
  it issued, in order.
* `String.prototype.trim` and `String.prototype.toLowerCase` are parameters
  (`Builtins`); `new Date().toISOString()` is the parameter `now`.
* A rejection or a `throw` carries an `Error` object (`Thrown`).
-/

namespace NutriApi

/-! ## JavaScript values -/

/-- Plain JavaScript data. -/
inductive JsVal where
  | undefined
  | null
  | bool (b : Bool)
  | num (n : Int)
  | str (s : String)
  | arr (xs : List JsVal)
  | obj (fields : List (String × JsVal))
  deriving Inhabited

/-- What a `throw` (or a rejected promise) carries: an `Error` object with its
name and its message. -/
inductive Thrown where
  | error (name msg : String)

namespace JsVal

/-- The test `v == null` that `??` and `?.` perform. -/
def isNullish : JsVal → Bool
  | undefined => true
  | null => true
  | _ => false

/-- JavaScript `ToBoolean`. -/
def truthy : JsVal → Bool
  | undefined => false
  | null => false
  | bool b => b
  | num n => n != 0
  | str s => s != ""
  | arr _ => true
  | obj _ => true

/-- Own data property of an object value: the value bound to the key, `undefined`
when the object has no such key (an object binds a key once). -/
def own (fields : List (String × JsVal)) (k : String) : JsVal :=
  match fields.lookup k with
  | some v => v
  | none => undefined

/-- Property read `v.k` for the data-property names the handlers use: a
`TypeError` on `null`/`undefined`, the own property on an object, `undefined` on
any other value. -/
def get (v : JsVal) (k : String) : Except Thrown JsVal :=
  match v with
  | undefined =>
    .error (.error "TypeError" ("Cannot read properties of undefined (reading \x27" ++ k ++ "\x27)"))
  | null =>
    .error (.error "TypeError" ("Cannot read properties of null (reading \x27" ++ k ++ "\x27)"))
  | obj fields => .ok (own fields k)
  | _ => .ok undefined

/-- Optional chaining `v?.k`. -/
def getOpt (v : JsVal) (k : String) : JsVal :=
  match v with
  | obj fields => own fields k
  | _ => undefined

/-- Nullish coalescing `a ?? b` (with `b` already a value). -/
def orElse (a b : JsVal) : JsVal :=
  if a.isNullish then b else a

/-- Logical or `a || b` (with `b` already a value). -/
def or (a b : JsVal) : JsVal :=
  if a.truthy then a else b

mutual
/-- JavaScript `ToString` on data: arrays join their elements with a comma, an
object without an own `toString` prints as `[object Object]`, and an object whose
own `toString` is data cannot be converted. -/
def toStr : JsVal → Except Thrown String
  | undefined => .ok "undefined"
  | null => .ok "null"
  | bool true => .ok "true"
  | bool false => .ok "false"
  | num n => .ok (toString n)
  | str s => .ok s
  | arr xs =>
    match elemStrs xs with
    | .ok parts => .ok (",".intercalate parts)
    | .error e => .error e
  | obj fields =>
    match fields.lookup "toString" with
    | some _ => .error (.error "TypeError" "Cannot convert object to primitive value")
    | none => .ok "[object Object]"
/-- The element strings of `Array.prototype.join`. -/
def elemStrs : List JsVal → Except Thrown (List String)
  | [] => .ok []
  | x :: xs =>
    match (if x.isNullish then .ok "" else toStr x) with
    | .error e => .error e
    | .ok s =>
      match elemStrs xs with
      | .ok rest => .ok (s :: rest)
      | .error e => .error e
end

/-- The method call `v.toString()` on a non-nullish value. -/
def callToString (v : JsVal) : Except Thrown String :=
  match v with
  | obj fields =>
    match fields.lookup "toString" with
    | some _ => .error (.error "TypeError" "toString is not a function")
    | none => .ok "[object Object]"
  | _ => toStr v

end JsVal

/-- The text `String(err)` in the `catch` blocks (`Error.prototype.toString`). -/
def Thrown.render : Thrown → String
  | .error name msg =>
    if name = "" then msg else if msg = "" then name else name ++ ": " ++ msg

/-- The string built-ins the handlers call. -/
structure Builtins where
  trim : String → String
  toLowerCase : String → String

/-! ## Regular expressions -/

/-- The regular-expression syntax used by the literals of the login handler. -/
inductive Regex where
  | fail
  | eps
  | chr (c : Char)
  | dot
  | seq (a b : Regex)
  | alt (a b : Regex)
  | star (a : Regex)

namespace Regex

/-- Case canonicalisation of the `i` flag (without `u`), as far as a comparison
with an ASCII pattern character can see it: an ASCII lower-case letter becomes its
upper-case letter, and no code point from 128 on is mapped onto an ASCII one, so it
is left as it is. -/
def canon (c : Char) : Char :=
  if 97 ≤ c.toNat ∧ c.toNat ≤ 122 then Char.ofNat (c.toNat - 32) else c

/-- Line terminators, which `.` does not match. -/
def isLineTerminator (c : Char) : Bool :=
  c.toNat = 10 || c.toNat = 13 || c.toNat = 8232 || c.toNat = 8233

/-- A pattern made of the characters of a string, in sequence. -/
def lit : List Char → Regex
  | [] => eps
  | c :: cs => seq (chr c) (lit cs)

/-- Does the expression match the empty string. -/
def nullable : Regex → Bool
  | fail => false
  | eps => true
  | chr _ => false
  | dot => false
  | seq a b => nullable a && nullable b
  | alt a b => nullable a || nullable b
  | star _ => true

/-- Brzozowski derivative with respect to one input character, under the `i`
flag. -/
def deriv : Regex → Char → Regex
  | fail, _ => fail
  | eps, _ => fail
  | chr p, c => if canon p = canon c then eps else fail
  | dot, c => if isLineTerminator c then fail else eps
  | seq a b, c =>
    if nullable a then alt (seq (deriv a c) b) (deriv b c) else seq (deriv a c) b
  | alt a b, c => alt (deriv a c) (deriv b c)
  | star a, c => seq (deriv a c) (star a)

/-- Does some prefix of the input match. -/
def matchesAtStart : Regex → List Char → Bool
  | r, [] => nullable r
  | r, c :: cs => nullable r || matchesAtStart (deriv r c) cs

/-- The method `RegExp.prototype.test` for an unanchored expression with the `i` flag: does
a match start at some position of the input. -/
def test (r : Regex) : List Char → Bool
  | [] => matchesAtStart r []
  | c :: cs => matchesAtStart r (c :: cs) || test r cs

end Regex

/-- The literal `/invalid/i`. -/
def reInvalid : Regex := Regex.lit "invalid".toList

/-- The literal `/confirm/i`. -/
def reConfirm : Regex := Regex.lit "confirm".toList

/-- The literal `/not.*found|exist/i`. -/
def reNotFound : Regex :=
  Regex.alt
    (Regex.seq (Regex.lit "not".toList) (Regex.seq (Regex.star Regex.dot) (Regex.lit "found".toList)))
    (Regex.lit "exist".toList)

/-! ## The Supabase client and the effect of a handler -/

/-- One awaited call on the Supabase client. -/
inductive Call where
  /-- The call `supa.auth.admin.createUser({ email, password, user_metadata: { name } })` -/
  | createUser (email : String) (password name : JsVal)
  /-- The call `supa.from(table).select(column).eq("codigo", codigo).single()` -/
  | selectSingle (table column : String) (codigo : JsVal)
  /-- The call `supa.from(table).upsert(row).select().maybeSingle()` -/
  | upsert (table : String) (row : JsVal)
  /-- The call `supa.auth.signInWithPassword({ email, password })` -/
  | signInWithPassword (email password : String)
  /-- The call `supa.auth.admin.getUserByEmail(email)` -/
  | getUserByEmail (email : String)
  /-- The call `supa.auth.admin.listUsers({ page, perPage })` -/
  | listUsers (page perPage : Nat)

/-- The client: whether `auth.admin.getUserByEmail` is a function, and how the
provider answers a call in a given provider state (a resolved value or a
rejection, and the next provider state). -/
structure Supa (σ : Type) where
  hasGetUserByEmail : Bool
  respond : σ → Call → Except Thrown JsVal × σ

/-- The provider state and the calls issued so far, oldest first. -/
structure World (σ : Type) where
  state : σ
  calls : List Call

/-- A computation that may issue remote calls and may throw. -/
def Eff (σ α : Type) : Type := World σ → Except Thrown α × World σ

namespace Eff

/-- Return a value. -/
def ret {σ α : Type} (a : α) : Eff σ α := fun w => (.ok a, w)

/-- Sequence two computations; a throw skips the second. -/
def andThen {σ α β : Type} (m : Eff σ α) (f : α → Eff σ β) : Eff σ β := fun w =>
  match m w with
  | (.ok a, w1) => f a w1
  | (.error e, w1) => (.error e, w1)

instance {σ : Type} : Monad (Eff σ) where
  pure := ret
  bind := andThen

/-- A local evaluation that may throw. -/
def ofExcept {σ α : Type} (x : Except Thrown α) : Eff σ α := fun w => (x, w)

/-- Await one remote call. -/
def call {σ : Type} (supa : Supa σ) (c : Call) : Eff σ JsVal := fun w =>
  ((supa.respond w.state c).1, ⟨(supa.respond w.state c).2, w.calls ++ [c]⟩)

end Eff

/-- What `res.status(status).json(body)` sends. -/
structure Response where
  status : Nat
  body : JsVal

/-- The body of the `catch` blocks: `res.status(500).json(...)` with `String(err)`. -/
def internalError (e : Thrown) : Response :=
  ⟨500, .obj [("ok", .bool false), ("message", .str "Error interno"), ("detail", .str e.render)]⟩

/-- Run a handler body from a provider state with no call issued yet, with the
`try`/`catch` around it. -/
def runHandler {σ : Type} (m : Eff σ Response) (s : σ) : Response × World σ :=
  match m ⟨s, []⟩ with
  | (.ok r, w) => (r, w)
  | (.error e, w) => (internalError e, w)

/-! ## registerController -/

/-- The method call `email.trim()` on a truthy value. -/
def callTrim (B : Builtins) (v : JsVal) : Except Thrown String :=
  match v with
  | .str s => .ok (B.trim s)
  | _ => .error (.error "TypeError" "email.trim is not a function")

/-- The expression `createResp.user ?? createResp.data?.user ?? createResp.data ?? null`:
the first of the three shapes that is neither null nor undefined. -/
def createdUserOf (createResp : JsVal) : Except Thrown JsVal := do
  let u ← createResp.get "user"
  if !u.isNullish then pure u
  else
    let d ← createResp.get "data"
    if !(d.getOpt "user").isNullish then pure (d.getOpt "user")
    else pure (d.orElse .null)

/-- The expression `createdUser?.id ?? null`. -/
def userIdOf (createdUser : JsVal) : JsVal :=
  (createdUser.getOpt "id").orElse .null

/-- The row handed to `upsert` on table `perfiles`. -/
def perfilRow (userId nombre_usuario id_rol : JsVal) (now : String) (id_preferencia : JsVal) :
    JsVal :=
  .obj [("id", userId), ("nombre_usuario", nombre_usuario), ("id_rol", id_rol),
    ("fecha_creacion", .str now), ("id_preferencia", id_preferencia)]

/-- The `try` block of `registerController`. -/
def registerBody {σ : Type} (B : Builtins) (supa : Supa σ) (now : String) (reqBody : JsVal) :
    Eff σ Response := do
  let b := reqBody.or (.obj [])
  let email ← Eff.ofExcept (b.get "email")
  let password ← Eff.ofExcept (b.get "password")
  let nombre_usuario ← Eff.ofExcept (b.get "nombre_usuario")
  let codigo_preferencia ← Eff.ofExcept (b.get "codigo_preferencia")
  let codigo_rol ← Eff.ofExcept (b.get "codigo_rol")
  if !email.truthy || !password.truthy || !nombre_usuario.truthy
      || !codigo_preferencia.truthy || !codigo_rol.truthy then
    pure ⟨400, .obj [("ok", .bool false),
      ("message", .str "Faltan campos. Requerido: email, password, nombre_usuario, codigo_preferencia, codigo_rol")]⟩
  else
    let trimmed ← Eff.ofExcept (callTrim B email)
    let createResp ← Eff.call supa (.createUser trimmed password nombre_usuario)
    let createdUser ← Eff.ofExcept (createdUserOf createResp)
    let userId := userIdOf createdUser
    if !userId.truthy then
      pure ⟨500, .obj [("ok", .bool false), ("message", .str "No se obtuvo id del usuario creado"),
        ("detail", createResp)]⟩
    else
      let prefResp ← Eff.call supa (.selectSingle "preferencias" "id_preferencia" codigo_preferencia)
      let preferenciaData ← Eff.ofExcept (prefResp.get "data")
      let _errorPref ← Eff.ofExcept (prefResp.get "error")
      let id_preferencia ← Eff.ofExcept (preferenciaData.get "id_preferencia")
      let rolResp ← Eff.call supa (.selectSingle "roles" "id_rol" codigo_rol)
      let rolData ← Eff.ofExcept (rolResp.get "data")
      let _errorRol ← Eff.ofExcept (rolResp.get "error")
      let id_rol ← Eff.ofExcept (rolData.get "id_rol")
      let upsertResp ← Eff.call supa
        (.upsert "perfiles" (perfilRow userId nombre_usuario id_rol now id_preferencia))
      let upsertError ← Eff.ofExcept (upsertResp.get "error")
      if upsertError.truthy then
        pure ⟨500, .obj [("ok", .bool false),
          ("message", .str "Usuario creado pero error al crear perfil"),
          ("detail", (upsertError.getOpt "message").orElse upsertError)]⟩
      else
        pure ⟨201, .obj [("ok", .bool true), ("message", .str "Usuario creado correctamente"),
          ("user", .obj [("id", userId), ("email", .str trimmed),
            ("nombre_usuario", nombre_usuario)]),
          ("profile", (upsertResp.getOpt "data").orElse .null)]⟩

/-- The handler `registerController(req, res)` with `req.body = reqBody`: the
response sent, the provider state and the remote calls issued. -/
def registerController {σ : Type} (B : Builtins) (supa : Supa σ) (now : String)
    (reqBody : JsVal) (s : σ) : Response × World σ :=
  runHandler (registerBody B supa now reqBody) s

/-! ## loginController -/

/-- The conditional chain that picks the user-facing message from the provider
message. -/
def friendly (msg : String) : String :=
  if Regex.test reInvalid msg.toList then "Credenciales inválidas"
  else if Regex.test reConfirm msg.toList then "Email no confirmado"
  else if Regex.test reNotFound msg.toList then "Usuario no existe"
  else "No se pudo iniciar sesión"

/-- The `try` block of `loginController`. -/
def loginBody {σ : Type} (B : Builtins) (supa : Supa σ) (reqBody : JsVal) : Eff σ Response := do
  let rawEmail ← Eff.ofExcept ((reqBody.getOpt "email").orElse (.str "")).callToString
  let password ← Eff.ofExcept ((reqBody.getOpt "password").orElse (.str "")).callToString
  if rawEmail = "" ∨ password = "" then
    pure ⟨400, .obj [("ok", .bool false), ("message", .str "Faltan email o password")]⟩
  else
    let email := B.toLowerCase (B.trim rawEmail)
    let signResp ← Eff.call supa (.signInWithPassword email password)
    let signError ← Eff.ofExcept (signResp.get "error")
    if signError.truthy then
      let code := ((signError.getOpt "status").orElse (signError.getOpt "error")).orElse (.str "")
      let msg := (signError.getOpt "message").orElse (.str "Credenciales inválidas")
      let text ← Eff.ofExcept msg.toStr
      pure ⟨401, .obj [("ok", .bool false), ("message", .str (friendly text)), ("detail", msg),
        ("code", code)]⟩
    else
      let data ← Eff.ofExcept (signResp.get "data")
      let session := (data.getOpt "session").orElse .null
      let user := (data.getOpt "user").orElse .null
      if !session.truthy || !user.truthy then
        pure ⟨401, .obj [("ok", .bool false), ("message", .str "No se pudo crear sesión")]⟩
      else
        pure ⟨200, .obj [("ok", .bool true), ("message", .str "Login exitoso"),
          ("session", session), ("user", user)]⟩

/-- The handler `loginController(req, res)`. -/
def loginController {σ : Type} (B : Builtins) (supa : Supa σ) (reqBody : JsVal) (s : σ) :
    Response × World σ :=
  runHandler (loginBody B supa reqBody) s

/-! ## checkEmailController -/

/-- The method call `.toLowerCase()` on a non-nullish value. -/
def callToLowerCase (B : Builtins) (v : JsVal) : Except Thrown String :=
  match v with
  | .str s => .ok (B.toLowerCase s)
  | _ => .error (.error "TypeError" "(intermediate value).toLowerCase is not a function")

/-- The callback of `users.find`: `(u.email || "").toLowerCase() === qEmail`. -/
def emailMatches (B : Builtins) (qEmail : String) (u : JsVal) : Except Thrown Bool := do
  let e ← u.get "email"
  let lowered ← callToLowerCase B (e.or (.str ""))
  pure (decide (lowered = qEmail))

/-- The call `users.find(callback)`: the first element on which the callback holds, or
`undefined`. -/
def findUser (B : Builtins) (qEmail : String) : List JsVal → Except Thrown JsVal
  | [] => pure .undefined
  | u :: us => do
    if (← emailMatches B qEmail u) then pure u else findUser B qEmail us

/-- The expression `resp?.users ?? resp?.data?.users ?? []`. -/
def usersOf (resp : JsVal) : JsVal :=
  ((resp.getOpt "users").orElse ((resp.getOpt "data").getOpt "users")).orElse (.arr [])

/-- The page size of the scan. -/
def perPage : Nat := 100

/-- The `while (!found)` loop of the compatibility path, entered with
`found = null` at page `page`; its value is `found` when the loop is left. -/
def scanLoop {σ : Type} (B : Builtins) (supa : Supa σ) (qEmail : String) (page : Nat) :
    Eff σ JsVal := do
  let resp ← Eff.call supa (.listUsers page perPage)
  match usersOf resp with
  | .arr (u :: us) =>
    let found := (← Eff.ofExcept (findUser B qEmail (u :: us))).or .null
    if found.truthy then pure found
    else if (u :: us).length < perPage then pure found
    else if h : page + 1 > 20 then pure found
    else scanLoop B supa qEmail (page + 1)
  | _ => pure .null
termination_by 21 - page
decreasing_by omega

/-- The `try` block of `checkEmailController`. -/
def checkEmailBody {σ : Type} (B : Builtins) (supa : Supa σ) (reqBody : JsVal) :
    Eff σ Response := do
  let rawEmail ← Eff.ofExcept ((reqBody.getOpt "email").orElse (.str "")).callToString
  if rawEmail = "" then
    pure ⟨400, .obj [("ok", .bool false), ("message", .str "Falta email")]⟩
  else
    let qEmail := B.toLowerCase (B.trim rawEmail)
    if supa.hasGetUserByEmail then
      let resp ← Eff.call supa (.getUserByEmail qEmail)
      let data ← Eff.ofExcept (resp.get "data")
      let error ← Eff.ofExcept (resp.get "error")
      if error.truthy then
        pure ⟨500, .obj [("ok", .bool false), ("message", .str "Error consultando usuarios (admin)"),
          ("detail", (error.getOpt "message").orElse error)]⟩
      else
        pure ⟨200, .obj [("ok", .bool true), ("exists", .bool (data.getOpt "user").truthy),
          ("userId", ((data.getOpt "user").getOpt "id").orElse .null)]⟩
    else
      let found ← scanLoop B supa qEmail 1
      pure ⟨200, .obj [("ok", .bool true), ("exists", .bool found.truthy),
        ("userId", (found.getOpt "id").orElse .null)]⟩

/-- The handler `checkEmailController(req, res)`. -/
def checkEmailController {σ : Type} (B : Builtins) (supa : Supa σ) (reqBody : JsVal) (s : σ) :
    Response × World σ :=
  runHandler (checkEmailBody B supa reqBody) s

/-! ## Vocabulary of the specification -/

/-- The five fields a registration body must carry. -/
def requiredFields : List String :=
  ["email", "password", "nombre_usuario", "codigo_preferencia", "codigo_rol"]

/-- A field of the request body is missing: absent, `null` or the empty string. -/
def FieldMissing (reqBody : JsVal) (k : String) : Prop :=
  reqBody.getOpt k = .undefined ∨ reqBody.getOpt k = .null ∨ reqBody.getOpt k = .str ""

/-- The strings a regular expression denotes. -/
def Regex.Matches : Regex → List Char → Prop
  | .fail, _ => False
  | .eps, s => s = []
  | .chr p, s => ∃ c, s = [c] ∧ Regex.canon p = Regex.canon c
  | .dot, s => ∃ c, s = [c] ∧ Regex.isLineTerminator c = false
  | .seq a b, s => ∃ u t, s = u ++ t ∧ Matches a u ∧ Matches b t
  | .alt a b, s => Matches a s ∨ Matches b s
  | .star a, s => ∃ parts : List (List Char), s = parts.flatten ∧ ∀ p ∈ parts, Matches a p

/-- The message contains the word, letters compared without regard to case. -/
def ContainsIgnoringCase (word msg : String) : Prop :=
  ∃ pre post, msg.toList.map Char.toLower = pre ++ word.toList.map Char.toLower ++ post

/-- The not-found / does-not-exist pattern: the message contains "not" and, later
on the same line, "found"; or it contains "exist" (letters compared without
regard to case). -/
def NotFoundOrExist (msg : String) : Prop :=
  (∃ pre mid post,
      msg.toList.map Char.toLower = pre ++ "not".toList ++ mid ++ "found".toList ++ post
        ∧ ∀ c ∈ mid, Regex.isLineTerminator c = false)
    ∨ ContainsIgnoringCase "exist" msg

/-- The calls that fetch pages `page`, `page + 1`, ..., `page + n - 1`. -/
def fetches (page n : Nat) : List Call :=
  (List.range n).map (fun i => Call.listUsers (page + i) perPage)

/-- An email as a user record carries it: a string, or missing. -/
def isEmailValue : JsVal → Bool
  | .str _ => true
  | .undefined => true
  | .null => true
  | _ => false

/-- A user record as `listUsers` returns it: an object whose `email` is a string,
or is missing. -/
def isUserRecord : JsVal → Bool
  | .obj fields => isEmailValue (JsVal.own fields "email")
  | _ => false

/-- An email in lower case; a missing email counts as the empty string. -/
def lowercased (B : Builtins) : JsVal → String
  | .str s => B.toLowerCase s
  | _ => B.toLowerCase ""

/-- The lowercased email of a user record. -/
def lowercasedEmail (B : Builtins) (u : JsVal) : String :=
  lowercased B (u.getOpt "email")

/-- Page `j` (counted from 1) of a user list served in consecutive pages of
`perPage` users. -/
def pageOf (users : List JsVal) (j : Nat) : List JsVal :=
  (users.drop ((j - 1) * perPage)).take perPage

/-- From the provider states `st j`, the provider answers `listUsers` for every page
`j` between `lo` and `hi` with a response that carries the array `pages j`, and
moves to the state `st (j + 1)`. -/
def ServesPages {σ : Type} (supa : Supa σ) (st : Nat → σ) (pages : Nat → List JsVal)
    (lo hi : Nat) : Prop :=
  ∀ j, lo ≤ j → j ≤ hi →
    ∃ resp, supa.respond (st j) (.listUsers j perPage) = (.ok resp, st (j + 1))
      ∧ usersOf resp = .arr (pages j)

/-- Is the call a lookup in a code table. -/
def Call.isLookup : Call → Bool
  | .selectSingle _ _ _ => true
  | _ => false

/-- Does the list of characters `word` occur in `text` as a contiguous run. -/
def occursIn (word : List Char) : List Char → Bool
  | [] => word.isEmpty
  | c :: cs => (word.zip (c :: cs) == word.map (fun x => (x, x))) || occursIn word cs

mutual
/-- Does the identity id occur somewhere in a value: as a string, inside a string,
or in an element or a property of it, at any depth. -/
def JsVal.includes (id : String) : JsVal → Bool
  | .str s => occursIn id.toList s.toList
  | .arr xs => JsVal.includesAny id xs
  | .obj fields => JsVal.includesField id fields
  | _ => false
/-- Does the id occur in one of the values of a list. -/
def JsVal.includesAny (id : String) : List JsVal → Bool
  | [] => false
  | x :: xs => JsVal.includes id x || JsVal.includesAny id xs
/-- Does the id occur in one of the property values of an object. -/
def JsVal.includesField (id : String) : List (String × JsVal) → Bool
  | [] => false
  | (_, x) :: rest => JsVal.includes id x || JsVal.includesField id rest
end

/-- Every run of the computation extends the calls issued so far by some calls
`cs`, and its outcome and `cs` satisfy `R`. -/
def Eff.Sat {σ α : Type} (m : Eff σ α) (R : Except Thrown α → List Call → Prop) : Prop :=
  ∀ w : World σ, ∃ cs, (m w).2.calls = w.calls ++ cs ∧ R (m w).1 cs

/-- Every run of the computation from the world `w` extends the calls by some
calls `cs`, and its outcome and `cs` satisfy `R`. -/
def Eff.SatFrom {σ α : Type} (m : Eff σ α) (w : World σ)
    (R : Except Thrown α → List Call → Prop) : Prop :=
  ∃ cs, (m w).2.calls = w.calls ++ cs ∧ R (m w).1 cs

/-- The ids reachable in a `createUser` response through the shapes `resp.user`,
`resp.data.user` and `resp.data`. -/
def shapeIds (resp : JsVal) : List JsVal :=
  [(resp.getOpt "user").getOpt "id", ((resp.getOpt "data").getOpt "user").getOpt "id",
    (resp.getOpt "data").getOpt "id"]

/-! ## Concrete requests and providers -/

/-- White space that `trim` removes, among the code points below 256 and the byte
order mark. -/
def isWhiteSpace (c : Char) : Bool :=
  c.toNat = 32 || c.toNat = 9 || c.toNat = 10 || c.toNat = 11 || c.toNat = 12 || c.toNat = 13
    || c.toNat = 160 || c.toNat = 65279

/-- The string built-ins on ASCII text. -/
def asciiBuiltins : Builtins where
  trim s := ⟨((s.toList.dropWhile isWhiteSpace).reverse.dropWhile isWhiteSpace).reverse⟩
  toLowerCase s := ⟨s.toList.map Char.toLower⟩

/-- A provider without state that answers every call from a table. -/
def tableSupa (hasGetUserByEmail : Bool) (answer : Call → Except Thrown JsVal) : Supa Unit where
  hasGetUserByEmail := hasGetUserByEmail
  respond := fun _ c => (answer c, ())

/-- The answer `{ data, error }` of a Supabase call. -/
def dataError (data error : JsVal) : JsVal :=
  .obj [("data", data), ("error", error)]

/-- A rejection for a call the scenario does not expect. -/
def unexpected : Except Thrown JsVal :=
  .error (.error "Error" "unexpected call")

/-- A user record with an id and an email. -/
def userRecord (id : JsVal) (email : String) : JsVal :=
  .obj [("id", id), ("email", .str email)]

/-- A provider without `getUserByEmail` that serves a user list in pages, in the
shape `{ data: { users }, error: null }`. -/
def listSupa (users : List JsVal) : Supa Unit :=
  tableSupa false (fun c =>
    match c with
    | .listUsers page _ => .ok (dataError (.obj [("users", .arr (pageOf users page))]) .null)
    | _ => unexpected)

/-- A provider without `getUserByEmail` that answers every page number with the
same full page. -/
def endlessSupa (page : List JsVal) : Supa Unit :=
  tableSupa false (fun c =>
    match c with
    | .listUsers _ _ => .ok (dataError (.obj [("users", .arr page)]) .null)
    | _ => unexpected)

/-- 250 users; the one at position 230 (on page 3) has the email looked for. -/
def sampleUsers : List JsVal :=
  (List.range 250).map (fun i =>
    userRecord (.num i) (if i = 230 then "Target@Example.com" else "someone@example.com"))

/-- 250 users, none with the email looked for. -/
def otherUsers : List JsVal :=
  (List.range 250).map (fun i => userRecord (.num i) "someone@example.com")

/-- The request body `{ email }`. -/
def emailBody (email : String) : JsVal :=
  .obj [("email", .str email)]

/-- A registration body. -/
def registration (email password nombre_usuario codigo_preferencia codigo_rol : String) :
    JsVal :=
  .obj [("email", .str email), ("password", .str password),
    ("nombre_usuario", .str nombre_usuario), ("codigo_preferencia", .str codigo_preferencia),
    ("codigo_rol", .str codigo_rol)]

/-- A provider for a registration: it answers `createUser` with `createResp`, the
two lookups with `prefResp` and `rolResp`, and an upsert of `row` with
`upsertResp row`. -/
def registerSupa (createResp prefResp rolResp : JsVal) (upsertResp : JsVal → JsVal) :
    Supa Unit :=
  tableSupa true (fun c =>
    match c with
    | .createUser _ _ _ => .ok createResp
    | .selectSingle table _ _ => .ok (if table = "preferencias" then prefResp else rolResp)
    | .upsert _ row => .ok (upsertResp row)
    | _ => unexpected)

/-- A provider that fails the sign-in with the given message, in the shape
`{ data: { user: null, session: null }, error: { message, status: 400 } }`. -/
def failingSignIn (message : String) : Supa Unit :=
  tableSupa true (fun c =>
    match c with
    | .signInWithPassword _ _ =>
      .ok (dataError (.obj [("user", .null), ("session", .null)])
        (.obj [("message", .str message), ("status", .num 400)]))
    | _ => unexpected)

/-- The createUser answer of supabase-js v2 for a new identity with the given id. -/
def createdIdentity (id : String) : JsVal :=
  dataError (.obj [("user", .obj [("id", .str id)])]) .null

/-- The answer of the preferencias lookup: a row with id_preferencia 3. -/
def prefRow : JsVal :=
  dataError (.obj [("id_preferencia", .num 3)]) .null

/-- The answer of the roles lookup: a row with id_rol 2. -/
def rolRow : JsVal :=
  dataError (.obj [("id_rol", .num 2)]) .null

/-- A registration whose preference code has no row: the lookup answers
`{ data: null, error }`. -/
def missingCodeRun : Response × World Unit :=
  registerController asciiBuiltins
    (registerSupa (createdIdentity "9b2f-identity")
      (dataError .null (.obj [("message", .str "JSON object requested, multiple (or no) rows returned"),
        ("code", .str "PGRST116")]))
      rolRow (fun row => dataError row .null))
    "2025-01-01T00:00:00.000Z"
    (registration "ana@example.com" "secret" "Ana" "NO-SUCH-CODE" "USR") ()

/-- A registration answered by a createUser response in which `resp.user` is an
object without id and `resp.data.user` carries the id. -/
def shadowedIdRun : Response × World Unit :=
  registerController asciiBuiltins
    (registerSupa
      (.obj [("user", .obj []), ("data", .obj [("user", .obj [("id", .str "9b2f-identity")])])])
      prefRow rolRow (fun row => dataError row .null))
    "2025-01-01T00:00:00.000Z"
    (registration "ana@example.com" "secret" "Ana" "VEG" "USR") ()

/-! # Theorems -/

/-! ## Running a handler -/

section running
variable {σ α β : Type}

@[simp] theorem Eff.bind_def (m : Eff σ α) (f : α → Eff σ β) : (m >>= f) = Eff.andThen m f := rfl

@[simp] theorem Eff.pure_def (a : α) : (pure a : Eff σ α) = Eff.ret a := rfl

@[simp] theorem Eff.andThen_ofExcept_ok (a : α) (f : α → Eff σ β) :
    Eff.andThen (Eff.ofExcept (.ok a)) f = f a := rfl

@[simp] theorem Eff.andThen_ofExcept_error (e : Thrown) (f : α → Eff σ β) :
    Eff.andThen (Eff.ofExcept (.error e)) f = Eff.ofExcept (.error e) := rfl

@[simp] theorem Eff.andThen_ret (a : α) (f : α → Eff σ β) :
    Eff.andThen (Eff.ret a) f = f a := rfl

@[simp] theorem Eff.andThen_ofExcept_ok_apply (a : α) (f : α → Eff σ β) (w : World σ) :
    Eff.andThen (Eff.ofExcept (.ok a)) f w = f a w := rfl

@[simp] theorem Eff.andThen_ofExcept_error_apply (e : Thrown) (f : α → Eff σ β) (w : World σ) :
    Eff.andThen (Eff.ofExcept (.error e)) f w = (.error e, w) := rfl

@[simp] theorem Eff.ret_apply (a : α) (w : World σ) : Eff.ret a w = (.ok a, w) := rfl

@[simp] theorem JsVal.orElse_undefined (b : JsVal) : JsVal.undefined.orElse b = b := rfl

@[simp] theorem JsVal.orElse_null (b : JsVal) : JsVal.null.orElse b = b := rfl

@[simp] theorem JsVal.orElse_str (s : String) (b : JsVal) : (JsVal.str s).orElse b = .str s := rfl

theorem Eff.andThen_call_ok (supa : Supa σ) (c : Call) (f : JsVal → Eff σ β) (w : World σ)
    (a : JsVal) (s1 : σ) (h : supa.respond w.state c = (.ok a, s1)) :
    Eff.andThen (Eff.call supa c) f w = f a ⟨s1, w.calls ++ [c]⟩ := by
  simp [Eff.andThen, Eff.call, h]

theorem JsVal.get_or_empty (v : JsVal) (k : String) :
    (v.or (.obj [])).get k = .ok (v.getOpt k) := by
  cases v with
  | bool b => cases b <;> rfl
  | num n =>
    by_cases h : n = 0 <;>
      simp [JsVal.or, JsVal.truthy, JsVal.get, JsVal.getOpt, JsVal.own, h]
  | str s =>
    by_cases h : s = "" <;>
      simp [JsVal.or, JsVal.truthy, JsVal.get, JsVal.getOpt, JsVal.own, h]
  | _ => rfl

theorem JsVal.get_of_not_nullish (v : JsVal) (k : String) (h : v.isNullish = false) :
    v.get k = .ok (v.getOpt k) := by
  cases v <;> first | rfl | simp [JsVal.isNullish] at h

theorem JsVal.not_nullish_of_truthy (v : JsVal) (h : v.truthy = true) : v.isNullish = false := by
  cases v <;> first | rfl | simp [JsVal.truthy] at h

theorem JsVal.not_nullish_of_getOpt (v : JsVal) (k : String)
    (h : (v.getOpt k).isNullish = false) : v.isNullish = false := by
  cases v <;> first | rfl | simp [JsVal.getOpt, JsVal.isNullish] at h

end running

theorem FieldMissing.not_truthy {reqBody : JsVal} {k : String} (h : FieldMissing reqBody k) :
    (reqBody.getOpt k).truthy = false := by
  rcases h with h | h | h <;> simp [h, JsVal.truthy]

namespace Regex

theorem nullable_iff (r : Regex) : nullable r = true ↔ Matches r [] := by
  induction r with
  | fail => simp [nullable, Matches]
  | eps => simp [nullable, Matches]
  | chr p => simp [nullable, Matches]
  | dot => simp [nullable, Matches]
  | seq a b iha ihb =>
    simp only [nullable, Matches, Bool.and_eq_true, iha, ihb]
    constructor
    · rintro ⟨h1, h2⟩
      exact ⟨[], [], rfl, h1, h2⟩
    · rintro ⟨u, t, h, h1, h2⟩
      have hu : u = [] := by
        cases u with
        | nil => rfl
        | cons x xs => simp at h
      have ht : t = [] := by
        subst hu
        simpa using h.symm
      subst hu ht
      exact ⟨h1, h2⟩
  | alt a b iha ihb => simp [nullable, Matches, iha, ihb]
  | star a _ =>
    simp only [nullable, Matches, true_iff]
    exact ⟨[], rfl, by simp⟩

theorem star_cons_split (a : Regex) (c : Char) (s : List Char) :
    ∀ parts : List (List Char), c :: s = parts.flatten → (∀ p ∈ parts, Matches a p) →
      ∃ u rest, s = u ++ List.flatten rest ∧ Matches a (c :: u) ∧ ∀ p ∈ rest, Matches a p := by
  intro parts
  induction parts with
  | nil => intro h; simp at h
  | cons p ps ih =>
    intro h hall
    cases p with
    | nil =>
      simp only [List.flatten_cons, List.nil_append] at h
      exact ih h (fun q hq => hall q (List.mem_cons_of_mem _ hq))
    | cons x xs =>
      simp only [List.flatten_cons, List.cons_append, List.cons.injEq] at h
      obtain ⟨rfl, rfl⟩ := h
      exact ⟨xs, ps, rfl, hall _ (List.mem_cons_self _ _),
        fun q hq => hall q (List.mem_cons_of_mem _ hq)⟩

theorem deriv_iff (r : Regex) : ∀ (c : Char) (s : List Char),
    Matches (deriv r c) s ↔ Matches r (c :: s) := by
  induction r with
  | fail => intro c s; simp [deriv, Matches]
  | eps => intro c s; simp [deriv, Matches]
  | chr p =>
    intro c s
    by_cases h : canon p = canon c
    · simp only [deriv, h, if_true, Matches]
      constructor
      · rintro rfl
        exact ⟨c, rfl, rfl⟩
      · rintro ⟨d, hd, _⟩
        simp only [List.cons.injEq] at hd
        exact hd.2
    · simp only [deriv, h, if_false, Matches, false_iff]
      rintro ⟨d, hd, hpd⟩
      simp only [List.cons.injEq] at hd
      obtain ⟨rfl, _⟩ := hd
      exact h hpd
  | dot =>
    intro c s
    by_cases h : isLineTerminator c = true
    · simp only [deriv, h, if_true, Matches, false_iff]
      rintro ⟨d, hd, hnl⟩
      simp only [List.cons.injEq] at hd
      obtain ⟨rfl, _⟩ := hd
      simp [h] at hnl
    · simp only [deriv, h, Matches]
      constructor
      · rintro rfl
        exact ⟨c, rfl, by simpa using h⟩
      · rintro ⟨d, hd, _⟩
        simp only [List.cons.injEq] at hd
        exact hd.2
  | seq a b iha ihb =>
    intro c s
    have main : Matches (seq a b) (c :: s) ↔
        (∃ u t, s = u ++ t ∧ Matches a (c :: u) ∧ Matches b t)
          ∨ (Matches a [] ∧ Matches b (c :: s)) := by
      simp only [Matches]
      constructor
      · rintro ⟨u, t, h, h1, h2⟩
        cases u with
        | nil =>
          right
          simp only [List.nil_append] at h
          subst h
          exact ⟨h1, h2⟩
        | cons x xs =>
          left
          simp only [List.cons_append, List.cons.injEq] at h
          obtain ⟨rfl, rfl⟩ := h
          exact ⟨xs, t, rfl, h1, h2⟩
      · rintro (⟨u, t, rfl, h1, h2⟩ | ⟨h1, h2⟩)
        · exact ⟨c :: u, t, rfl, h1, h2⟩
        · exact ⟨[], c :: s, rfl, h1, h2⟩
    rw [main]
    by_cases hn : nullable a = true
    · have hn2 := (nullable_iff a).1 hn
      simp only [deriv, hn, if_true, Matches, iha, ihb]
      constructor
      · rintro (h | h)
        · exact Or.inl h
        · exact Or.inr ⟨hn2, h⟩
      · rintro (h | ⟨_, h⟩)
        · exact Or.inl h
        · exact Or.inr h
    · have hn2 : ¬ Matches a [] := fun h => hn ((nullable_iff a).2 h)
      simp only [deriv, hn, Matches, iha]
      constructor
      · intro h; exact Or.inl h
      · rintro (h | ⟨h, _⟩)
        · exact h
        · exact absurd h hn2
  | alt a b iha ihb => intro c s; simp [deriv, Matches, iha, ihb]
  | star a iha =>
    intro c s
    simp only [deriv, Matches, iha]
    constructor
    · rintro ⟨u, t, rfl, h1, parts, rfl, hall⟩
      refine ⟨(c :: u) :: parts, by simp, ?_⟩
      intro p hp
      rcases List.mem_cons.1 hp with rfl | hp
      · exact h1
      · exact hall p hp
    · rintro ⟨parts, h, hall⟩
      obtain ⟨u, rest, rfl, h1, h2⟩ := star_cons_split a c s parts h hall
      exact ⟨u, rest.flatten, rfl, h1, rest, rfl, h2⟩

theorem matchesAtStart_iff (s : List Char) : ∀ r : Regex,
    matchesAtStart r s = true ↔ ∃ m post, s = m ++ post ∧ Matches r m := by
  induction s with
  | nil =>
    intro r
    simp only [matchesAtStart, nullable_iff]
    constructor
    · intro h; exact ⟨[], [], rfl, h⟩
    · rintro ⟨m, post, h, hm⟩
      have : m = [] := by
        cases m with
        | nil => rfl
        | cons x xs => simp at h
      subst this
      exact hm
  | cons c cs ih =>
    intro r
    simp only [matchesAtStart, Bool.or_eq_true, nullable_iff, ih, deriv_iff]
    constructor
    · rintro (h | ⟨m, post, rfl, hm⟩)
      · exact ⟨[], c :: cs, rfl, h⟩
      · exact ⟨c :: m, post, rfl, hm⟩
    · rintro ⟨m, post, h, hm⟩
      cases m with
      | nil => exact Or.inl hm
      | cons x xs =>
        simp only [List.cons_append, List.cons.injEq] at h
        obtain ⟨rfl, rfl⟩ := h
        exact Or.inr ⟨xs, post, rfl, hm⟩

theorem test_iff (r : Regex) (s : List Char) :
    test r s = true ↔ ∃ pre m post, s = pre ++ m ++ post ∧ Matches r m := by
  induction s with
  | nil =>
    simp only [test, matchesAtStart_iff]
    constructor
    · rintro ⟨m, post, h, hm⟩
      exact ⟨[], m, post, by simpa using h, hm⟩
    · rintro ⟨pre, m, post, h, hm⟩
      have h1 : pre = [] := by
        cases pre with
        | nil => rfl
        | cons x xs => simp at h
      subst h1
      exact ⟨m, post, by simpa using h, hm⟩
  | cons c cs ih =>
    simp only [test, Bool.or_eq_true, matchesAtStart_iff, ih]
    constructor
    · rintro (⟨m, post, h, hm⟩ | ⟨pre, m, post, rfl, hm⟩)
      · exact ⟨[], m, post, by simpa using h, hm⟩
      · exact ⟨c :: pre, m, post, by simp, hm⟩
    · rintro ⟨pre, m, post, h, hm⟩
      cases pre with
      | nil => exact Or.inl ⟨m, post, by simpa using h, hm⟩
      | cons x xs =>
        simp only [List.cons_append, List.cons.injEq] at h
        obtain ⟨rfl, rfl⟩ := h
        exact Or.inr ⟨xs, m, post, by simp, hm⟩

end Regex

namespace Regex

/-! ### Case folding -/

theorem toNat_ofNat_of_lt (n : Nat) (h : n < 55296) : (Char.ofNat n).toNat = n := by
  have hv : n.isValidChar := Or.inl h
  simp only [Char.ofNat, dif_pos hv]
  rfl

theorem char_eq_of_toNat_eq {c d : Char} (h : c.toNat = d.toNat) : c = d := by
  have := congrArg Char.ofNat h
  simpa using this

theorem canon_toNat (x : Char) :
    (canon x).toNat = if 97 ≤ x.toNat ∧ x.toNat ≤ 122 then x.toNat - 32 else x.toNat := by
  unfold canon
  split
  · rw [toNat_ofNat_of_lt _ (by omega)]
  · rfl

theorem toLower_toNat (x : Char) :
    x.toLower.toNat = if 65 ≤ x.toNat ∧ x.toNat ≤ 90 then x.toNat + 32 else x.toNat := by
  unfold Char.toLower
  dsimp only
  split
  · rw [toNat_ofNat_of_lt _ (by omega)]
  · rfl

theorem canon_eq_iff (p c : Char) : canon p = canon c ↔ p.toLower = c.toLower := by
  constructor
  · intro h
    apply char_eq_of_toNat_eq
    have h1 := congrArg Char.toNat h
    rw [canon_toNat, canon_toNat] at h1
    rw [toLower_toNat, toLower_toNat]
    split_ifs at h1 ⊢ <;> omega
  · intro h
    apply char_eq_of_toNat_eq
    have h1 := congrArg Char.toNat h
    rw [toLower_toNat, toLower_toNat] at h1
    rw [canon_toNat, canon_toNat]
    split_ifs at h1 ⊢ <;> omega

theorem isLineTerminator_toLower (c : Char) :
    isLineTerminator c.toLower = isLineTerminator c := by
  have h := toLower_toNat c
  unfold isLineTerminator
  split_ifs at h with hc
  · have e1 : ¬ c.toLower.toNat = 10 := by omega
    have e2 : ¬ c.toLower.toNat = 13 := by omega
    have e3 : ¬ c.toLower.toNat = 8232 := by omega
    have e4 : ¬ c.toLower.toNat = 8233 := by omega
    have f1 : ¬ c.toNat = 10 := by omega
    have f2 : ¬ c.toNat = 13 := by omega
    have f3 : ¬ c.toNat = 8232 := by omega
    have f4 : ¬ c.toNat = 8233 := by omega
    simp [e1, e2, e3, e4, f1, f2, f3, f4]
  · rw [h]

/-! ### What the three literals denote -/

theorem matches_lit (p : List Char) : ∀ m : List Char,
    Matches (lit p) m ↔ m.map Char.toLower = p.map Char.toLower := by
  induction p with
  | nil =>
    intro m
    simp [lit, Matches]
  | cons c cs ih =>
    intro m
    simp only [lit, Matches, ih, List.map_cons]
    constructor
    · rintro ⟨u, t, rfl, ⟨d, rfl, hcd⟩, ht⟩
      simp [ht, (canon_eq_iff c d).1 hcd]
    · intro h
      cases m with
      | nil => simp at h
      | cons d t =>
        simp only [List.map_cons, List.cons.injEq] at h
        exact ⟨[d], t, rfl, ⟨d, rfl, (canon_eq_iff c d).2 h.1.symm⟩, h.2⟩

theorem matches_star_dot (m : List Char) :
    Matches (star dot) m ↔ ∀ c ∈ m, isLineTerminator c = false := by
  simp only [Matches]
  constructor
  · rintro ⟨parts, rfl, hall⟩ c hc
    obtain ⟨p, hp, hcp⟩ := List.mem_flatten.1 hc
    obtain ⟨d, rfl, hd⟩ := hall p hp
    simp only [List.mem_singleton] at hcp
    subst hcp
    exact hd
  · intro h
    refine ⟨m.map (fun c => [c]), ?_, ?_⟩
    · clear h
      induction m with
      | nil => rfl
      | cons x xs ih => simp [← ih]
    · intro p hp
      obtain ⟨c, hc, rfl⟩ := List.mem_map.1 hp
      exact ⟨c, rfl, h c hc⟩

theorem test_lit_iff (p s : List Char) :
    test (lit p) s = true ↔
      ∃ pre post, s.map Char.toLower = pre ++ p.map Char.toLower ++ post := by
  rw [test_iff]
  constructor
  · rintro ⟨pre, m, post, rfl, hm⟩
    exact ⟨pre.map Char.toLower, post.map Char.toLower, by
      simp [(matches_lit p m).1 hm]⟩
  · rintro ⟨pre, post, h⟩
    obtain ⟨l1, l2, rfl, h1, h2⟩ := List.map_eq_append_iff.1 h
    obtain ⟨l3, l4, rfl, h3, h4⟩ := List.map_eq_append_iff.1 h1
    exact ⟨l3, l4, l2, rfl, (matches_lit p l4).2 h4⟩

theorem test_notFound_left_iff (n f s : List Char) :
    test (seq (lit n) (seq (star dot) (lit f))) s = true ↔
      ∃ pre mid post, s.map Char.toLower
          = pre ++ n.map Char.toLower ++ mid ++ f.map Char.toLower ++ post
        ∧ ∀ c ∈ mid, isLineTerminator c = false := by
  rw [test_iff]
  constructor
  · rintro ⟨pre, m, post, rfl, hm⟩
    simp only [Matches] at hm
    obtain ⟨a, t, rfl, ha, mid, b, rfl, hmid, hb⟩ := hm
    have hmid2 := (matches_star_dot mid).1 (by simpa only [Matches] using hmid)
    refine ⟨pre.map Char.toLower, mid.map Char.toLower, post.map Char.toLower, ?_, ?_⟩
    · simp [(matches_lit n a).1 ha, (matches_lit f b).1 hb]
    · intro c hc
      obtain ⟨d, hd, rfl⟩ := List.mem_map.1 hc
      rw [isLineTerminator_toLower]
      exact hmid2 d hd
  · rintro ⟨pre, mid, post, h, hmid⟩
    obtain ⟨l1, lpost, rfl, h1, _⟩ := List.map_eq_append_iff.1 h
    obtain ⟨l2, lf, rfl, h2, hf⟩ := List.map_eq_append_iff.1 h1
    obtain ⟨l3, lmid, rfl, h3, hm⟩ := List.map_eq_append_iff.1 h2
    obtain ⟨lpre, ln, rfl, _, hn⟩ := List.map_eq_append_iff.1 h3
    refine ⟨lpre, ln ++ (lmid ++ lf), lpost, by simp, ?_⟩
    simp only [Matches]
    refine ⟨ln, lmid ++ lf, rfl, (matches_lit n ln).2 hn, lmid, lf, rfl, ?_, (matches_lit f lf).2 hf⟩
    have := (matches_star_dot lmid).2 (by
      intro c hc
      rw [← isLineTerminator_toLower]
      exact hmid _ (hm ▸ List.mem_map_of_mem _ hc))
    simpa only [Matches] using this

theorem test_alt (a b : Regex) (s : List Char) :
    test (alt a b) s = (test a s || test b s) := by
  rw [Bool.eq_iff_iff]
  simp only [Bool.or_eq_true, test_iff, Matches]
  constructor
  · rintro ⟨pre, m, post, h, hm | hm⟩
    · exact Or.inl ⟨pre, m, post, h, hm⟩
    · exact Or.inr ⟨pre, m, post, h, hm⟩
  · rintro (⟨pre, m, post, h, hm⟩ | ⟨pre, m, post, h, hm⟩)
    · exact ⟨pre, m, post, h, Or.inl hm⟩
    · exact ⟨pre, m, post, h, Or.inr hm⟩

end Regex

theorem friendly_spec (msg : String) :
    (ContainsIgnoringCase "invalid" msg → friendly msg = "Credenciales inválidas")
    ∧ (¬ ContainsIgnoringCase "invalid" msg → ContainsIgnoringCase "confirm" msg →
        friendly msg = "Email no confirmado")
    ∧ (¬ ContainsIgnoringCase "invalid" msg → ¬ ContainsIgnoringCase "confirm" msg →
        NotFoundOrExist msg → friendly msg = "Usuario no existe")
    ∧ (¬ ContainsIgnoringCase "invalid" msg → ¬ ContainsIgnoringCase "confirm" msg →
        ¬ NotFoundOrExist msg → friendly msg = "No se pudo iniciar sesión") := by
  have hi : Regex.test reInvalid msg.toList = true ↔ ContainsIgnoringCase "invalid" msg :=
    Regex.test_lit_iff _ _
  have hc : Regex.test reConfirm msg.toList = true ↔ ContainsIgnoringCase "confirm" msg :=
    Regex.test_lit_iff _ _
  have hn : Regex.test reNotFound msg.toList = true ↔ NotFoundOrExist msg := by
    unfold reNotFound NotFoundOrExist
    rw [Regex.test_alt, Bool.or_eq_true, Regex.test_notFound_left_iff, Regex.test_lit_iff]
    rfl
  unfold friendly
  refine ⟨?_, ?_, ?_, ?_⟩
  · intro h
    rw [if_pos (hi.2 h)]
  · intro h1 h2
    rw [if_neg (fun h => h1 (hi.1 h)), if_pos (hc.2 h2)]
  · intro h1 h2 h3
    rw [if_neg (fun h => h1 (hi.1 h)), if_neg (fun h => h2 (hc.1 h)), if_pos (hn.2 h3)]
  · intro h1 h2 h3
    rw [if_neg (fun h => h1 (hi.1 h)), if_neg (fun h => h2 (hc.1 h)),
      if_neg (fun h => h3 (hn.1 h))]

theorem login_provider_error {σ : Type} (B : Builtins) (supa : Supa σ) (reqBody : JsVal)
    (s s1 : σ) (e p msg : String) (resp : JsVal)
    (hemail : ((reqBody.getOpt "email").orElse (.str "")).callToString = .ok e) (he : e ≠ "")
    (hpass : ((reqBody.getOpt "password").orElse (.str "")).callToString = .ok p) (hp : p ≠ "")
    (hresp : supa.respond s (.signInWithPassword (B.toLowerCase (B.trim e)) p) = (.ok resp, s1))
    (herr : (resp.getOpt "error").truthy = true)
    (hmsg : (resp.getOpt "error").getOpt "message" = .str msg) :
    loginController B supa reqBody s =
      (⟨401, .obj [("ok", .bool false), ("message", .str (friendly msg)), ("detail", .str msg),
          ("code", (((resp.getOpt "error").getOpt "status").orElse
            ((resp.getOpt "error").getOpt "error")).orElse (.str ""))]⟩,
        ⟨s1, [.signInWithPassword (B.toLowerCase (B.trim e)) p]⟩) := by
  have hnn : resp.isNullish = false :=
    JsVal.not_nullish_of_getOpt _ _ (JsVal.not_nullish_of_truthy _ herr)
  unfold loginController runHandler
  have hbody : loginBody B supa reqBody ⟨s, []⟩ =
      (.ok ⟨401, .obj [("ok", .bool false), ("message", .str (friendly msg)), ("detail", .str msg),
          ("code", (((resp.getOpt "error").getOpt "status").orElse
            ((resp.getOpt "error").getOpt "error")).orElse (.str ""))]⟩,
        ⟨s1, [.signInWithPassword (B.toLowerCase (B.trim e)) p]⟩) := by
    simp only [loginBody, hemail, hpass, Eff.bind_def, Eff.andThen_ofExcept_ok_apply,
      Eff.pure_def]
    simp only [he, hp, or_self, if_false]
    rw [Eff.andThen_call_ok _ _ _ _ _ _ hresp]
    simp only [JsVal.get_of_not_nullish _ _ hnn, Eff.andThen_ofExcept_ok_apply, herr, if_true,
      hmsg, JsVal.orElse_str, JsVal.toStr, Eff.ret_apply, List.nil_append]
  rw [hbody]

theorem fetches_succ (page n : Nat) :
    fetches page (n + 1) = Call.listUsers page perPage :: fetches (page + 1) n := by
  simp only [fetches, List.range_succ_eq_map, List.map_cons, List.map_map, Nat.add_zero]
  congr 1
  apply List.map_congr_left
  intro i _
  simp only [Function.comp_apply]
  congr 1
  omega

theorem fetches_one (page : Nat) : fetches page 1 = [Call.listUsers page perPage] := rfl

theorem scanLoop_unfold {σ : Type} (B : Builtins) (supa : Supa σ) (q : String) (page : Nat)
    (w : World σ) :
    scanLoop B supa q page w =
      match supa.respond w.state (.listUsers page perPage) with
      | (.error e, s1) => (.error e, ⟨s1, w.calls ++ [.listUsers page perPage]⟩)
      | (.ok resp, s1) =>
        match usersOf resp with
        | .arr (u :: us) =>
          match findUser B q (u :: us) with
          | .error e => (.error e, ⟨s1, w.calls ++ [.listUsers page perPage]⟩)
          | .ok f =>
            if (f.or .null).truthy = true ∨ (u :: us).length < perPage ∨ page + 1 > 20 then
              (.ok (f.or .null), ⟨s1, w.calls ++ [.listUsers page perPage]⟩)
            else scanLoop B supa q (page + 1) ⟨s1, w.calls ++ [.listUsers page perPage]⟩
        | _ => (.ok .null, ⟨s1, w.calls ++ [.listUsers page perPage]⟩) := by
  rw [scanLoop]
  simp only [Eff.bind_def, Eff.pure_def]
  rcases hr : supa.respond w.state (.listUsers page perPage) with ⟨r, s1⟩
  cases r with
  | error e => simp [Eff.andThen, Eff.call, hr]
  | ok resp =>
    rw [Eff.andThen_call_ok _ _ _ _ _ _ hr]
    dsimp only
    generalize usersOf resp = users
    cases users with
    | arr xs =>
      cases xs with
      | nil => rfl
      | cons u us =>
        dsimp only
        cases hf : findUser B q (u :: us) with
        | error e => rfl
        | ok f =>
          simp only [Eff.andThen_ofExcept_ok_apply]
          by_cases h1 : (f.or .null).truthy = true
          · rw [if_pos h1, if_pos (Or.inl h1)]
            rfl
          · by_cases h2 : (u :: us).length < perPage
            · rw [if_neg h1, if_pos h2, if_pos (Or.inr (Or.inl h2))]
              rfl
            · by_cases h3 : page + 1 > 20
              · rw [if_neg h1, if_neg h2, dif_pos h3, if_pos (Or.inr (Or.inr h3))]
                rfl
              · rw [if_neg h1, if_neg h2, dif_neg h3, if_neg (by tauto)]
    | _ => rfl

theorem scanLoop_calls {σ : Type} (B : Builtins) (supa : Supa σ) (q : String) :
    ∀ (d page : Nat) (w : World σ), page + d = 20 →
      ∃ n, 1 ≤ n ∧ n ≤ d + 1 ∧ (scanLoop B supa q page w).2.calls = w.calls ++ fetches page n := by
  intro d
  induction d with
  | zero =>
    intro page w hp
    refine ⟨1, le_refl _, le_refl _, ?_⟩
    rw [scanLoop_unfold, fetches_one]
    have h20 : page + 1 > 20 := by omega
    rcases supa.respond w.state (.listUsers page perPage) with ⟨r, s1⟩
    cases r with
    | error e => rfl
    | ok resp =>
      dsimp only
      split
      · split
        · rfl
        · rw [if_pos (Or.inr (Or.inr h20))]
      · rfl
  | succ d ih =>
    intro page w hp
    rw [scanLoop_unfold]
    rcases supa.respond w.state (.listUsers page perPage) with ⟨r, s1⟩
    cases r with
    | error e => exact ⟨1, le_refl _, by omega, rfl⟩
    | ok resp =>
      dsimp only
      split
      · split
        · exact ⟨1, le_refl _, by omega, rfl⟩
        · split
          · exact ⟨1, le_refl _, by omega, rfl⟩
          · obtain ⟨n, h1, h2, h3⟩ :=
              ih (page + 1) ⟨s1, w.calls ++ [.listUsers page perPage]⟩ (by omega)
            refine ⟨n + 1, by omega, by omega, ?_⟩
            rw [h3, fetches_succ]
            simp
      · exact ⟨1, le_refl _, by omega, rfl⟩

/-! ## The scan over user pages -/

theorem callToLowerCase_or (B : Builtins) (e : JsVal) (h : isEmailValue e = true) :
    callToLowerCase B (e.or (.str "")) = .ok (lowercased B e) := by
  cases e with
  | str s =>
    by_cases hs : s = ""
    · subst hs
      rfl
    · simp [JsVal.or, JsVal.truthy, hs, callToLowerCase, lowercased]
  | undefined => rfl
  | null => rfl
  | bool b => simp [isEmailValue] at h
  | num n => simp [isEmailValue] at h
  | arr xs => simp [isEmailValue] at h
  | obj fs => simp [isEmailValue] at h

theorem emailMatches_record (B : Builtins) (q : String) (u : JsVal) (h : isUserRecord u = true) :
    emailMatches B q u = .ok (decide (lowercasedEmail B u = q)) := by
  cases u with
  | obj fields =>
    simp only [isUserRecord] at h
    simp only [emailMatches, JsVal.get, lowercasedEmail, JsVal.getOpt, bind, Except.bind,
      callToLowerCase_or B _ h]
    rfl
  | _ => simp [isUserRecord] at h

theorem isUserRecord_truthy (u : JsVal) (h : isUserRecord u = true) : u.truthy = true := by
  cases u <;> first | rfl | simp [isUserRecord] at h

theorem findUser_cons_miss (B : Builtins) (q : String) (v : JsVal) (vs : List JsVal)
    (hv : isUserRecord v = true) (hne : lowercasedEmail B v ≠ q) :
    findUser B q (v :: vs) = findUser B q vs := by
  simp [findUser, emailMatches_record B q v hv, hne, bind, Except.bind]

theorem findUser_cons_hit (B : Builtins) (q : String) (v : JsVal) (vs : List JsVal)
    (hv : isUserRecord v = true) (heq : lowercasedEmail B v = q) :
    findUser B q (v :: vs) = .ok v := by
  simp [findUser, emailMatches_record B q v hv, heq, bind, Except.bind, pure, Except.pure]

theorem findUser_none (B : Builtins) (q : String) (vs : List JsVal)
    (h : ∀ v ∈ vs, isUserRecord v = true ∧ lowercasedEmail B v ≠ q) :
    findUser B q vs = .ok .undefined := by
  induction vs with
  | nil => rfl
  | cons v vs ih =>
    rw [findUser_cons_miss B q v vs (h v (List.mem_cons_self _ _)).1
      (h v (List.mem_cons_self _ _)).2]
    exact ih (fun x hx => h x (List.mem_cons_of_mem _ hx))

theorem findUser_first (B : Builtins) (q : String) (pre post : List JsVal) (u : JsVal)
    (hpre : ∀ v ∈ pre, isUserRecord v = true ∧ lowercasedEmail B v ≠ q)
    (hu : isUserRecord u = true) (heq : lowercasedEmail B u = q) :
    findUser B q (pre ++ u :: post) = .ok u := by
  induction pre with
  | nil => exact findUser_cons_hit B q u post hu heq
  | cons v vs ih =>
    rw [List.cons_append, findUser_cons_miss B q v _ (hpre v (List.mem_cons_self _ _)).1
      (hpre v (List.mem_cons_self _ _)).2]
    exact ih (fun x hx => hpre x (List.mem_cons_of_mem _ hx))

/-- One turn of the loop on a page on which `find` runs to its end. -/
theorem scanLoop_page {σ : Type} (B : Builtins) (supa : Supa σ) (q : String) (page : Nat)
    (w : World σ) (resp : JsVal) (s1 : σ) (xs : List JsVal) (f : JsVal)
    (hr : supa.respond w.state (.listUsers page perPage) = (.ok resp, s1))
    (hx : usersOf resp = .arr xs) (hne : xs ≠ []) (hf : findUser B q xs = .ok f) :
    scanLoop B supa q page w =
      if (f.or .null).truthy = true ∨ xs.length < perPage ∨ page + 1 > 20 then
        (.ok (f.or .null), ⟨s1, w.calls ++ [.listUsers page perPage]⟩)
      else scanLoop B supa q (page + 1) ⟨s1, w.calls ++ [.listUsers page perPage]⟩ := by
  rw [scanLoop_unfold, hr]
  dsimp only
  rw [hx]
  cases xs with
  | nil => exact absurd rfl hne
  | cons u us =>
    dsimp only
    rw [hf]

/-- One turn of the loop on an empty page. -/
theorem scanLoop_empty {σ : Type} (B : Builtins) (supa : Supa σ) (q : String) (page : Nat)
    (w : World σ) (resp : JsVal) (s1 : σ)
    (hr : supa.respond w.state (.listUsers page perPage) = (.ok resp, s1))
    (hx : usersOf resp = .arr []) :
    scanLoop B supa q page w = (.ok .null, ⟨s1, w.calls ++ [.listUsers page perPage]⟩) := by
  rw [scanLoop_unfold, hr]
  dsimp only
  rw [hx]

theorem fetches_append_one (page n : Nat) :
    [Call.listUsers page perPage] ++ fetches (page + 1) n = fetches page (n + 1) := by
  rw [fetches_succ]
  rfl

/-- The loop runs through full pages without a match and stops on the page that
holds one. -/
theorem scanLoop_finds {σ : Type} (B : Builtins) (supa : Supa σ) (q : String) (st : Nat → σ)
    (pages : Nat → List JsVal) (k : Nat) (pre post : List JsVal) (u : JsVal) (hk : k ≤ 20)
    (hfull : ∀ j, 1 ≤ j → j < k → (pages j).length = perPage
      ∧ ∀ v ∈ pages j, isUserRecord v = true ∧ lowercasedEmail B v ≠ q)
    (hpage : pages k = pre ++ u :: post)
    (hpre : ∀ v ∈ pre, isUserRecord v = true ∧ lowercasedEmail B v ≠ q)
    (hu : isUserRecord u = true) (heq : lowercasedEmail B u = q) :
    ∀ (d page : Nat) (calls : List Call), 1 ≤ page → page + d = k →
      ServesPages supa st pages page k →
      scanLoop B supa q page ⟨st page, calls⟩
        = (.ok u, ⟨st (k + 1), calls ++ fetches page (d + 1)⟩) := by
  intro d
  induction d with
  | zero =>
    intro page calls h1 hd hserve
    have hpk : page = k := by omega
    subst hpk
    obtain ⟨resp, hr, hx⟩ := hserve page (le_refl _) (le_refl _)
    have hne : pages page ≠ [] := by
      rw [hpage]
      simp
    have hf : findUser B q (pages page) = .ok u := by
      rw [hpage]
      exact findUser_first B q pre post u hpre hu heq
    rw [scanLoop_page B supa q page ⟨st page, calls⟩ resp _ _ u hr hx hne hf]
    have hut : (u.or .null) = u := by
      simp [JsVal.or, isUserRecord_truthy u hu]
    rw [hut, if_pos (Or.inl (isUserRecord_truthy u hu)), fetches_one]
  | succ d ih =>
    intro page calls h1 hd hserve
    obtain ⟨resp, hr, hx⟩ := hserve page (le_refl _) (by omega)
    obtain ⟨hlen, hall⟩ := hfull page h1 (by omega)
    have hne : pages page ≠ [] := by
      intro h0
      rw [h0] at hlen
      simp [perPage] at hlen
    have hf := findUser_none B q (pages page) hall
    rw [scanLoop_page B supa q page ⟨st page, calls⟩ resp _ _ _ hr hx hne hf]
    have hcond : ¬ ((JsVal.undefined.or .null).truthy = true ∨ (pages page).length < perPage
        ∨ page + 1 > 20) := by
      rw [hlen]
      simp [JsVal.or, JsVal.truthy]
      omega
    rw [if_neg hcond]
    dsimp only
    rw [ih (page + 1) _ (by omega) (by omega)
      (fun j hj1 hj2 => hserve j (by omega) hj2)]
    rw [List.append_assoc, fetches_append_one]

/-- The loop runs through a whole user list that holds no match. -/
theorem scanLoop_exhausts {σ : Type} (B : Builtins) (supa : Supa σ) (q : String) (st : Nat → σ)
    (users : List JsVal) (hlen : users.length < 2000)
    (hall : ∀ v ∈ users, isUserRecord v = true ∧ lowercasedEmail B v ≠ q) :
    ∀ (d page : Nat) (calls : List Call), 1 ≤ page → page + d = users.length / 100 + 1 →
      ServesPages supa st (pageOf users) page (users.length / 100 + 1) →
      scanLoop B supa q page ⟨st page, calls⟩
        = (.ok .null, ⟨st (users.length / 100 + 2), calls ++ fetches page (d + 1)⟩) := by
  have hmem : ∀ j, ∀ v ∈ pageOf users j, isUserRecord v = true ∧ lowercasedEmail B v ≠ q :=
    fun j v hv => hall v (List.mem_of_mem_drop (List.mem_of_mem_take hv))
  have hlength : ∀ j, (pageOf users j).length = min perPage (users.length - (j - 1) * perPage) := by
    intro j
    simp [pageOf]
  intro d
  induction d with
  | zero =>
    intro page calls h1 hd hserve
    obtain ⟨resp, hr, hx⟩ := hserve page (le_refl _) (by omega)
    have hshort : (pageOf users page).length < perPage := by
      rw [hlength]
      simp only [perPage]
      omega
    have hst : st (page + 1) = st (users.length / 100 + 2) := by
      congr 1
      omega
    by_cases hne : pageOf users page = []
    · rw [hne] at hx
      rw [scanLoop_empty B supa q page ⟨st page, calls⟩ resp _ hr hx, fetches_one, hst]
    · have hf := findUser_none B q (pageOf users page) (hmem page)
      rw [scanLoop_page B supa q page ⟨st page, calls⟩ resp _ _ _ hr hx hne hf,
        if_pos (Or.inr (Or.inl hshort)), fetches_one, hst]
      rfl
  | succ d ih =>
    intro page calls h1 hd hserve
    obtain ⟨resp, hr, hx⟩ := hserve page (le_refl _) (by omega)
    have hfull : (pageOf users page).length = perPage := by
      rw [hlength]
      simp only [perPage]
      omega
    have hne : pageOf users page ≠ [] := by
      intro h0
      rw [h0] at hfull
      simp [perPage] at hfull
    have hf := findUser_none B q (pageOf users page) (hmem page)
    rw [scanLoop_page B supa q page ⟨st page, calls⟩ resp _ _ _ hr hx hne hf]
    have hcond : ¬ ((JsVal.undefined.or .null).truthy = true
        ∨ (pageOf users page).length < perPage ∨ page + 1 > 20) := by
      rw [hfull]
      simp [JsVal.or, JsVal.truthy]
      omega
    rw [if_neg hcond]
    dsimp only
    rw [ih (page + 1) _ (by omega) (by omega)
      (fun j hj1 hj2 => hserve j (by omega) hj2)]
    rw [List.append_assoc, fetches_append_one]

/-! ## checkEmailController, compatibility path -/

theorem runHandler_snd {σ : Type} (m : Eff σ Response) (s : σ) :
    (runHandler m s).2 = (m ⟨s, []⟩).2 := by
  unfold runHandler
  split <;> simp [*]

theorem checkEmail_fallback_run {σ : Type} (B : Builtins) (supa : Supa σ) (reqBody : JsVal)
    (s : σ) (e : String) (hfallback : supa.hasGetUserByEmail = false)
    (hemail : ((reqBody.getOpt "email").orElse (.str "")).callToString = .ok e) (he : e ≠ "") :
    checkEmailController B supa reqBody s =
      match scanLoop B supa (B.toLowerCase (B.trim e)) 1 ⟨s, []⟩ with
      | (.ok found, w1) =>
        (⟨200, .obj [("ok", .bool true), ("exists", .bool found.truthy),
          ("userId", (found.getOpt "id").orElse .null)]⟩, w1)
      | (.error err, w1) => (internalError err, w1) := by
  simp only [checkEmailController, runHandler, checkEmailBody, hemail, Eff.bind_def,
    Eff.andThen_ofExcept_ok_apply, Eff.pure_def, he, if_false, hfallback, Bool.false_eq_true]
  simp only [Eff.andThen]
  rcases scanLoop B supa (B.toLowerCase (B.trim e)) 1 ⟨s, []⟩ with ⟨r, w1⟩
  cases r <;> rfl

theorem checkEmail_calls {σ : Type} (B : Builtins) (supa : Supa σ) (reqBody : JsVal) (s : σ)
    (hfallback : supa.hasGetUserByEmail = false) :
    ∃ n, n ≤ 20 ∧ (checkEmailController B supa reqBody s).2.calls = fetches 1 n := by
  unfold checkEmailController
  rw [runHandler_snd]
  simp only [checkEmailBody, Eff.bind_def, Eff.pure_def]
  cases hraw : ((reqBody.getOpt "email").orElse (.str "")).callToString with
  | error err => exact ⟨0, by omega, rfl⟩
  | ok raw =>
    simp only [Eff.andThen_ofExcept_ok_apply]
    by_cases hempty : raw = ""
    · exact ⟨0, by omega, by simp [hempty, fetches]⟩
    · simp only [hempty, if_false, hfallback, Bool.false_eq_true]
      obtain ⟨n, _, h2, h3⟩ :=
        scanLoop_calls B supa (B.toLowerCase (B.trim raw)) 19 1 ⟨s, []⟩ rfl
      refine ⟨n, h2, ?_⟩
      simp only [List.nil_append] at h3
      rw [← h3]
      simp only [Eff.andThen]
      rcases scanLoop B supa (B.toLowerCase (B.trim raw)) 1 ⟨s, []⟩ with ⟨r, w1⟩
      cases r <;> rfl

theorem scanLoop_endless {σ : Type} (B : Builtins) (supa : Supa σ) (q : String)
    (hprov : ∀ (s1 : σ) (j : Nat), ∃ resp s2,
      supa.respond s1 (.listUsers j perPage) = (.ok resp, s2)
        ∧ ∃ us, usersOf resp = .arr us ∧ us.length = perPage
          ∧ ∀ v ∈ us, isUserRecord v = true ∧ lowercasedEmail B v ≠ q) :
    ∀ (d page : Nat) (w : World σ), page + d = 20 →
      ∃ s1, scanLoop B supa q page w = (.ok .null, ⟨s1, w.calls ++ fetches page (d + 1)⟩) := by
  intro d
  induction d with
  | zero =>
    intro page w hd
    obtain ⟨resp, s2, hr, us, hx, hlen, hall⟩ := hprov w.state page
    have hne : us ≠ [] := by
      intro h0
      rw [h0] at hlen
      simp [perPage] at hlen
    refine ⟨s2, ?_⟩
    rw [scanLoop_page B supa q page w resp _ _ _ hr hx hne (findUser_none B q us hall),
      if_pos (Or.inr (Or.inr (by omega))), fetches_one]
    rfl
  | succ d ih =>
    intro page w hd
    obtain ⟨resp, s2, hr, us, hx, hlen, hall⟩ := hprov w.state page
    have hne : us ≠ [] := by
      intro h0
      rw [h0] at hlen
      simp [perPage] at hlen
    rw [scanLoop_page B supa q page w resp _ _ _ hr hx hne (findUser_none B q us hall)]
    have hcond : ¬ ((JsVal.undefined.or .null).truthy = true ∨ us.length < perPage
        ∨ page + 1 > 20) := by
      rw [hlen]
      simp [JsVal.or, JsVal.truthy]
      omega
    rw [if_neg hcond]
    obtain ⟨s1, h⟩ := ih (page + 1) ⟨s2, w.calls ++ [.listUsers page perPage]⟩ (by omega)
    refine ⟨s1, ?_⟩
    rw [h]
    dsimp only
    rw [List.append_assoc, fetches_append_one]

/-- C3. In the compatibility path (a provider without getUserByEmail), when pages 1
to k-1 each hold exactly 100 user records, none with a lowercased email equal to the
trimmed, lowercased query e, and page k (k at most 20) holds a first record u whose
lowercased email equals it, the handler answers 200 with exists = true and userId
the id of u, after exactly the k calls that fetch pages 1 to k. -/
theorem checkEmail_fallback_finds {σ : Type} (B : Builtins) (supa : Supa σ) (reqBody : JsVal)
    (e : String) (st : Nat → σ) (pages : Nat → List JsVal) (k : Nat) (pre post : List JsVal)
    (u : JsVal)
    (hfallback : supa.hasGetUserByEmail = false)
    (hemail : ((reqBody.getOpt "email").orElse (.str "")).callToString = .ok e) (he : e ≠ "")
    (hk1 : 1 ≤ k) (hk : k ≤ 20)
    (hserve : ServesPages supa st pages 1 k)
    (hfull : ∀ j, 1 ≤ j → j < k → (pages j).length = 100
      ∧ ∀ v ∈ pages j, isUserRecord v = true
          ∧ lowercasedEmail B v ≠ B.toLowerCase (B.trim e))
    (hpage : pages k = pre ++ u :: post)
    (hpre : ∀ v ∈ pre, isUserRecord v = true ∧ lowercasedEmail B v ≠ B.toLowerCase (B.trim e))
    (hu : isUserRecord u = true) (heq : lowercasedEmail B u = B.toLowerCase (B.trim e)) :
    checkEmailController B supa reqBody (st 1) =
      (⟨200, .obj [("ok", .bool true), ("exists", .bool true),
          ("userId", (u.getOpt "id").orElse .null)]⟩,
        ⟨st (k + 1), fetches 1 k⟩) := by
  rw [checkEmail_fallback_run B supa reqBody (st 1) e hfallback hemail he,
    scanLoop_finds B supa _ st pages k pre post u hk hfull hpage hpre hu heq (k - 1) 1 []
      (le_refl _) (by omega) hserve]
  have hk2 : k - 1 + 1 = k := by omega
  simp only [isUserRecord_truthy u hu, List.nil_append, hk2]

/-- C4. In the compatibility path, for a list of fewer than 2000 user records
served in consecutive pages of 100, none with a lowercased email equal to the
trimmed, lowercased query, the handler answers 200 with ok = true, exists = false
and userId = null, after fetching pages 1 to (length / 100) + 1, which include
every non-empty page. -/
theorem checkEmail_fallback_absent {σ : Type} (B : Builtins) (supa : Supa σ) (reqBody : JsVal)
    (e : String) (st : Nat → σ) (users : List JsVal)
    (hfallback : supa.hasGetUserByEmail = false)
    (hemail : ((reqBody.getOpt "email").orElse (.str "")).callToString = .ok e) (he : e ≠ "")
    (hlen : users.length < 2000)
    (hall : ∀ v ∈ users, isUserRecord v = true
      ∧ lowercasedEmail B v ≠ B.toLowerCase (B.trim e))
    (hserve : ServesPages supa st (pageOf users) 1 (users.length / 100 + 1)) :
    checkEmailController B supa reqBody (st 1) =
        (⟨200, .obj [("ok", .bool true), ("exists", .bool false), ("userId", .null)]⟩,
          ⟨st (users.length / 100 + 2), fetches 1 (users.length / 100 + 1)⟩)
      ∧ ∀ j, 1 ≤ j → pageOf users j ≠ [] →
          Call.listUsers j 100 ∈ fetches 1 (users.length / 100 + 1) := by
  constructor
  · rw [checkEmail_fallback_run B supa reqBody (st 1) e hfallback hemail he,
      scanLoop_exhausts B supa _ st users hlen hall (users.length / 100) 1 []
        (le_refl _) (by omega) hserve]
    rfl
  · intro j hj hne
    have hpos : 0 < (pageOf users j).length := List.length_pos.2 hne
    have hl : (pageOf users j).length = min perPage (users.length - (j - 1) * perPage) := by
      simp [pageOf]
    rw [hl] at hpos
    simp only [perPage] at hpos
    simp only [fetches, List.mem_map, List.mem_range]
    refine ⟨j - 1, by omega, ?_⟩
    have : 1 + (j - 1) = j := by omega
    rw [this]
    rfl

/-- C5. Whatever the provider answers to `listUsers`, the scan of the compatibility
path ends after at most 20 calls, which fetch pages 1, 2, ... in order with
perPage = 100 and never page 21; against a provider that answers every page number
with a full page without a match it issues exactly the 20 calls for pages 1 to 20
and answers exists = false. -/
theorem checkEmail_scan_bounded {σ : Type} (B : Builtins) (supa : Supa σ) (reqBody : JsVal)
    (s : σ) (hfallback : supa.hasGetUserByEmail = false) :
    (∃ n, n ≤ 20 ∧ (checkEmailController B supa reqBody s).2.calls
        = (List.range n).map (fun i => Call.listUsers (1 + i) 100))
      ∧ ∀ e, ((reqBody.getOpt "email").orElse (.str "")).callToString = .ok e → e ≠ "" →
          (∀ (s1 : σ) (j : Nat), ∃ resp s2,
            supa.respond s1 (.listUsers j 100) = (.ok resp, s2)
              ∧ ∃ us, usersOf resp = .arr us ∧ us.length = 100
                ∧ ∀ v ∈ us, isUserRecord v = true
                    ∧ lowercasedEmail B v ≠ B.toLowerCase (B.trim e)) →
          (checkEmailController B supa reqBody s).2.calls
              = (List.range 20).map (fun i => Call.listUsers (1 + i) 100)
            ∧ (checkEmailController B supa reqBody s).1
              = ⟨200, .obj [("ok", .bool true), ("exists", .bool false), ("userId", .null)]⟩ := by
  constructor
  · exact checkEmail_calls B supa reqBody s hfallback
  · intro e hemail he hprov
    obtain ⟨s1, h⟩ := scanLoop_endless B supa (B.toLowerCase (B.trim e)) hprov 19 1 ⟨s, []⟩ rfl
    rw [checkEmail_fallback_run B supa reqBody s e hfallback hemail he, h]
    exact ⟨rfl, rfl⟩

set_option maxRecDepth 100000 in
theorem sampleUsers_page_miss : ∀ j, 1 ≤ j → j < 3 → (pageOf sampleUsers j).length = 100
      ∧ ∀ v ∈ pageOf sampleUsers j, isUserRecord v = true
          ∧ lowercasedEmail asciiBuiltins v
            ≠ asciiBuiltins.toLowerCase (asciiBuiltins.trim "  TARGET@example.com ") := by
  intro j h1 h2
  interval_cases j
  · decide
  · decide

set_option maxRecDepth 100000 in
theorem checkEmail_fallback_finds_witness :
    checkEmailController asciiBuiltins (listSupa sampleUsers)
        (emailBody "  TARGET@example.com ") ()
      = (⟨200, .obj [("ok", .bool true), ("exists", .bool true), ("userId", .num 230)]⟩,
          ⟨(), [.listUsers 1 100, .listUsers 2 100, .listUsers 3 100]⟩) :=
  checkEmail_fallback_finds asciiBuiltins (listSupa sampleUsers)
    (emailBody "  TARGET@example.com ") "  TARGET@example.com " (fun _ => ())
    (pageOf sampleUsers) 3 ((pageOf sampleUsers 3).take 30)
    ((pageOf sampleUsers 3).drop 31) (userRecord (.num 230) "Target@Example.com")
    rfl rfl (by decide) (by decide) (by decide)
    (fun j _ _ => ⟨_, rfl, rfl⟩)
    sampleUsers_page_miss
    rfl (by decide) (by decide) (by decide)

set_option maxRecDepth 100000 in
theorem otherUsers_miss : ∀ v ∈ otherUsers, isUserRecord v = true
      ∧ lowercasedEmail asciiBuiltins v
        ≠ asciiBuiltins.toLowerCase (asciiBuiltins.trim "  TARGET@example.com ") := by
  decide

set_option maxRecDepth 100000 in
theorem checkEmail_fallback_absent_witness :
    checkEmailController asciiBuiltins (listSupa otherUsers)
        (emailBody "  TARGET@example.com ") ()
      = (⟨200, .obj [("ok", .bool true), ("exists", .bool false), ("userId", .null)]⟩,
          ⟨(), [.listUsers 1 100, .listUsers 2 100, .listUsers 3 100]⟩) :=
  (checkEmail_fallback_absent asciiBuiltins (listSupa otherUsers)
    (emailBody "  TARGET@example.com ") "  TARGET@example.com " (fun _ => ()) otherUsers
    rfl rfl (by decide) (by decide) otherUsers_miss (fun j _ _ => ⟨_, rfl, rfl⟩)).1

set_option maxRecDepth 100000 in
theorem checkEmail_scan_bounded_witness :
    (endlessSupa (List.replicate 100 (userRecord (.str "x") "someone@example.com"))).hasGetUserByEmail
        = false
      ∧ (checkEmailController asciiBuiltins
          (endlessSupa (List.replicate 100 (userRecord (.str "x") "someone@example.com")))
          (emailBody "ana@example.com") ()).2.calls
        = (List.range 20).map (fun i => Call.listUsers (1 + i) 100) :=
  ⟨rfl, ((checkEmail_scan_bounded asciiBuiltins
    (endlessSupa (List.replicate 100 (userRecord (.str "x") "someone@example.com")))
    (emailBody "ana@example.com") () rfl).2 "ana@example.com" rfl (by decide)
    (fun _ _ => ⟨_, _, rfl, _, rfl, rfl, by decide⟩)).1⟩

/-! ## Reasoning about every run of a handler -/

section sat
variable {σ α β : Type}

theorem Eff.sat_ret (a : α) (R : Except Thrown α → List Call → Prop) (h : R (.ok a) []) :
    Eff.Sat (Eff.ret a : Eff σ α) R := by
  intro w
  exact ⟨[], by simp, h⟩

theorem Eff.sat_andThen_ofExcept (x : Except Thrown α) (f : α → Eff σ β)
    (R : Except Thrown β → List Call → Prop)
    (herr : ∀ e, x = .error e → R (.error e) [])
    (hok : ∀ a, x = .ok a → Eff.Sat (f a) R) :
    Eff.Sat (Eff.andThen (Eff.ofExcept x) f) R := by
  cases x with
  | error e =>
    intro w
    exact ⟨[], by simp, herr e rfl⟩
  | ok a => exact hok a rfl

theorem Eff.sat_andThen_call (supa : Supa σ) (c : Call) (f : JsVal → Eff σ β)
    (R : Except Thrown β → List Call → Prop)
    (herr : ∀ e, R (.error e) [c])
    (hok : ∀ a, Eff.Sat (f a) (fun r cs => R r (c :: cs))) :
    Eff.Sat (Eff.andThen (Eff.call supa c) f) R := by
  intro w
  unfold Eff.andThen Eff.call
  rcases hr : supa.respond w.state c with ⟨r, s1⟩
  cases r with
  | error e => exact ⟨[c], rfl, herr e⟩
  | ok a =>
    obtain ⟨cs, hcs, h⟩ := hok a ⟨s1, w.calls ++ [c]⟩
    refine ⟨c :: cs, ?_, h⟩
    dsimp only at hcs ⊢
    rw [hcs]
    simp

theorem Eff.sat_ite (c : Prop) [Decidable c] (t e : Eff σ α)
    (R : Except Thrown α → List Call → Prop)
    (ht : c → Eff.Sat t R) (he : ¬ c → Eff.Sat e R) :
    Eff.Sat (if c then t else e) R := by
  by_cases h : c
  · rw [if_pos h]
    exact ht h
  · rw [if_neg h]
    exact he h

end sat

/-! ## The response envelope -/

section satFrom
variable {σ α β : Type}

theorem Eff.satFrom_of_sat (m : Eff σ α) (w : World σ)
    (R : Except Thrown α → List Call → Prop) (h : Eff.Sat m R) : Eff.SatFrom m w R :=
  h w

theorem Eff.satFrom_andThen_call (supa : Supa σ) (c : Call) (f : JsVal → Eff σ β)
    (w : World σ) (R : Except Thrown β → List Call → Prop)
    (herr : ∀ e s1, supa.respond w.state c = (.error e, s1) → R (.error e) [c])
    (hok : ∀ a s1, supa.respond w.state c = (.ok a, s1) →
      Eff.SatFrom (f a) ⟨s1, w.calls ++ [c]⟩ (fun r cs => R r (c :: cs))) :
    Eff.SatFrom (Eff.andThen (Eff.call supa c) f) w R := by
  unfold Eff.SatFrom Eff.andThen Eff.call
  rcases hr : supa.respond w.state c with ⟨r, s1⟩
  cases r with
  | error e => exact ⟨[c], rfl, herr e s1 hr⟩
  | ok a =>
    obtain ⟨cs, hcs, h⟩ := hok a s1 hr
    refine ⟨c :: cs, ?_, h⟩
    dsimp only at hcs ⊢
    rw [hcs]
    simp

theorem runHandler_satFrom (m : Eff σ Response)
    (R : Except Thrown Response → List Call → Prop) (s : σ)
    (hm : Eff.SatFrom m ⟨s, []⟩ R) :
    (∃ r, (runHandler m s).1 = r ∧ R (.ok r) (runHandler m s).2.calls)
      ∨ (∃ e, (runHandler m s).1 = internalError e ∧ R (.error e) (runHandler m s).2.calls) := by
  obtain ⟨cs, hcs, hr⟩ := hm
  unfold runHandler
  rcases hmw : m ⟨s, []⟩ with ⟨r, w1⟩
  rw [hmw] at hcs hr
  simp only [List.nil_append] at hcs
  cases r with
  | ok resp =>
    left
    exact ⟨resp, rfl, by simpa [hcs] using hr⟩
  | error e =>
    right
    exact ⟨e, rfl, by simpa [hcs] using hr⟩

end satFrom

theorem userIdOf_of_no_id (createResp cu : JsVal)
    (hno : ∀ v ∈ shapeIds createResp, v.isNullish = true)
    (hcu : createdUserOf createResp = .ok cu) : (userIdOf cu).truthy = false := by
  have h1 := hno _ (List.mem_cons_self _ _)
  have h2 := hno _ (List.mem_cons_of_mem _ (List.mem_cons_self _ _))
  have h3 := hno _ (List.mem_cons_of_mem _ (List.mem_cons_of_mem _ (List.mem_cons_self _ _)))
  have key : ∀ x : JsVal, (x.getOpt "id").isNullish = true → (userIdOf x).truthy = false := by
    intro x hx
    simp [userIdOf, JsVal.orElse, hx, JsVal.truthy]
  have hnn : createResp.isNullish = false := by
    cases createResp <;> first | rfl | simp [createdUserOf, JsVal.get, bind, Except.bind] at hcu
  simp only [createdUserOf, JsVal.get_of_not_nullish _ _ hnn, bind, Except.bind, pure,
    Except.pure] at hcu
  split at hcu
  · cases hcu
    exact key _ h1
  · split at hcu
    · cases hcu
      exact key _ h2
    · cases hcu
      by_cases hd : (createResp.getOpt "data").isNullish = true
      · rw [JsVal.orElse, if_pos hd]
        rfl
      · rw [JsVal.orElse, if_neg hd]
        exact key _ h3

theorem register_fields_present (reqBody : JsVal) (e : String)
    (hemail : reqBody.getOpt "email" = .str e) (he : e ≠ "")
    (hpassword : (reqBody.getOpt "password").truthy = true)
    (hnombre : (reqBody.getOpt "nombre_usuario").truthy = true)
    (hcp : (reqBody.getOpt "codigo_preferencia").truthy = true)
    (hcr : (reqBody.getOpt "codigo_rol").truthy = true) :
    (!(reqBody.getOpt "email").truthy || !(reqBody.getOpt "password").truthy
      || !(reqBody.getOpt "nombre_usuario").truthy
      || !(reqBody.getOpt "codigo_preferencia").truthy
      || !(reqBody.getOpt "codigo_rol").truthy) = false := by
  have h1 : (reqBody.getOpt "email").truthy = true := by
    rw [hemail]
    simp [JsVal.truthy, he]
  simp [h1, hpassword, hnombre, hcp, hcr]

/-- C10 as the handler does it. For a registration with its five fields, when no
non-null id can be reached in the createUser response through resp.user,
resp.data.user or resp.data, the handler answers 500 with ok = false and issues no
call after createUser; and when the first of resp.user, resp.data?.user, resp.data
that is not null or undefined carries a truthy id, the handler goes on to the
preferencias lookup, every upsert it issues is keyed by that id, and a 201 response
returns that id. -/
theorem register_identity_id {σ : Type} (B : Builtins) (supa : Supa σ) (now : String)
    (reqBody : JsVal) (s s1 : σ) (e : String) (createResp : JsVal)
    (hemail : reqBody.getOpt "email" = .str e) (he : e ≠ "")
    (hpassword : (reqBody.getOpt "password").truthy = true)
    (hnombre : (reqBody.getOpt "nombre_usuario").truthy = true)
    (hcp : (reqBody.getOpt "codigo_preferencia").truthy = true)
    (hcr : (reqBody.getOpt "codigo_rol").truthy = true)
    (hcreate : supa.respond s
      (.createUser (B.trim e) (reqBody.getOpt "password") (reqBody.getOpt "nombre_usuario"))
        = (.ok createResp, s1)) :
    ((∀ v ∈ shapeIds createResp, v.isNullish = true) →
        (registerController B supa now reqBody s).1.status = 500
        ∧ (registerController B supa now reqBody s).1.body.getOpt "ok" = .bool false
        ∧ (registerController B supa now reqBody s).2.calls
          = [.createUser (B.trim e) (reqBody.getOpt "password")
              (reqBody.getOpt "nombre_usuario")])
    ∧ (∀ cu, createdUserOf createResp = .ok cu → (userIdOf cu).truthy = true →
        (∃ rest, (registerController B supa now reqBody s).2.calls
          = [.createUser (B.trim e) (reqBody.getOpt "password")
                (reqBody.getOpt "nombre_usuario"),
              .selectSingle "preferencias" "id_preferencia"
                (reqBody.getOpt "codigo_preferencia")] ++ rest)
        ∧ (∀ table row, Call.upsert table row ∈ (registerController B supa now reqBody s).2.calls →
            row.getOpt "id" = userIdOf cu)
        ∧ ((registerController B supa now reqBody s).1.status = 201 →
            ((registerController B supa now reqBody s).1.body.getOpt "user").getOpt "id"
              = userIdOf cu)) := by
  have hcond := register_fields_present reqBody e hemail he hpassword hnombre hcp hcr
  constructor
  · intro hno
    unfold registerController runHandler
    simp only [registerBody, JsVal.get_or_empty, Eff.bind_def, Eff.andThen_ofExcept_ok_apply,
      Eff.pure_def, hcond, if_false, Bool.false_eq_true]
    simp only [hemail, callTrim, Eff.andThen_ofExcept_ok_apply]
    rw [Eff.andThen_call_ok _ _ _ _ _ _ hcreate]
    cases hcu : createdUserOf createResp with
    | error err =>
      simp only [Eff.andThen_ofExcept_error_apply]
      exact ⟨rfl, rfl, rfl⟩
    | ok cu =>
      simp only [Eff.andThen_ofExcept_ok_apply, userIdOf_of_no_id createResp cu hno hcu,
        Bool.not_false, if_true, Eff.ret_apply]
      exact ⟨trivial, rfl, rfl⟩
  · intro cu hcu hid
    have hsat : Eff.SatFrom (registerBody B supa now reqBody) ⟨s, []⟩ (fun r cs =>
        (∃ rest, cs = [.createUser (B.trim e) (reqBody.getOpt "password")
                (reqBody.getOpt "nombre_usuario"),
              .selectSingle "preferencias" "id_preferencia"
                (reqBody.getOpt "codigo_preferencia")] ++ rest)
        ∧ (∀ table row, Call.upsert table row ∈ cs → row.getOpt "id" = userIdOf cu)
        ∧ (∀ resp, r = .ok resp → resp.status = 201 →
            (resp.body.getOpt "user").getOpt "id" = userIdOf cu)) := by
      simp only [registerBody, JsVal.get_or_empty, Eff.bind_def, Eff.andThen_ofExcept_ok,
        Eff.pure_def, hcond, if_false, Bool.false_eq_true]
      simp only [hemail, callTrim, Eff.andThen_ofExcept_ok]
      apply Eff.satFrom_andThen_call
      · intro err s2 h
        rw [hcreate] at h
        cases h
      intro a s2 h
      rw [hcreate] at h
      cases h
      simp only [hcu, Eff.andThen_ofExcept_ok, hid, Bool.not_true, if_false, Bool.false_eq_true]
      apply Eff.satFrom_of_sat
      repeat' first
        | apply Eff.sat_andThen_call
        | apply Eff.sat_andThen_ofExcept
        | apply Eff.sat_ite
        | apply Eff.sat_ret
        | intro _
      all_goals
        refine ⟨⟨_, rfl⟩, ?_, ?_⟩
      all_goals
        first
        | (intro table row hmem
           simp at hmem <;>
             (obtain ⟨_, rfl⟩ := hmem
              rfl))
        | (intro resp h hs
           cases h <;> first | rfl | (simp at hs))
    unfold registerController
    rcases runHandler_satFrom _ _ s hsat with ⟨r, hr, h1, h2, h3⟩ | ⟨err, herr, h1, h2, h3⟩
    · refine ⟨h1, h2, fun hst => ?_⟩
      rw [hr] at hst ⊢
      exact h3 r rfl hst
    · refine ⟨h1, h2, fun hst => ?_⟩
      rw [herr] at hst
      simp [internalError] at hst

/-- C8. For a registration with its five fields (the email a string) in which
createUser yields the identity id u, the preferencias lookup yields id_preferencia
p, the roles lookup yields id_rol r and the upsert succeeds and returns the row it
was given, the handler answers 201 with user = (id u, the trimmed email in its
original casing, nombre_usuario) and a profile whose id is u, whose id_preferencia
is p and whose id_rol is r. -/
theorem register_success {σ : Type} (B : Builtins) (supa : Supa σ) (now : String)
    (reqBody : JsVal) (s s1 s2 s3 s4 : σ) (e : String)
    (createResp createdUser prefResp rolResp upsertResp u p r : JsVal)
    (hemail : reqBody.getOpt "email" = .str e) (he : e ≠ "")
    (hpassword : (reqBody.getOpt "password").truthy = true)
    (hnombre : (reqBody.getOpt "nombre_usuario").truthy = true)
    (hcp : (reqBody.getOpt "codigo_preferencia").truthy = true)
    (hcr : (reqBody.getOpt "codigo_rol").truthy = true)
    (hcreate : supa.respond s
      (.createUser (B.trim e) (reqBody.getOpt "password") (reqBody.getOpt "nombre_usuario"))
        = (.ok createResp, s1))
    (hcreated : createdUserOf createResp = .ok createdUser)
    (hu : userIdOf createdUser = u) (hid : u.truthy = true)
    (hpref : supa.respond s1
      (.selectSingle "preferencias" "id_preferencia" (reqBody.getOpt "codigo_preferencia"))
        = (.ok prefResp, s2))
    (hprefRow : (prefResp.getOpt "data").isNullish = false)
    (hp : (prefResp.getOpt "data").getOpt "id_preferencia" = p)
    (hrol : supa.respond s2 (.selectSingle "roles" "id_rol" (reqBody.getOpt "codigo_rol"))
        = (.ok rolResp, s3))
    (hrolRow : (rolResp.getOpt "data").isNullish = false)
    (hr : (rolResp.getOpt "data").getOpt "id_rol" = r)
    (hupsert : supa.respond s3
      (.upsert "perfiles" (perfilRow u (reqBody.getOpt "nombre_usuario") r now p))
        = (.ok upsertResp, s4))
    (hok : (upsertResp.getOpt "error").truthy = false)
    (hrow : upsertResp.getOpt "data"
      = perfilRow u (reqBody.getOpt "nombre_usuario") r now p) :
    (registerController B supa now reqBody s).1 =
        ⟨201, .obj [("ok", .bool true), ("message", .str "Usuario creado correctamente"),
          ("user", .obj [("id", u), ("email", .str (B.trim e)),
            ("nombre_usuario", reqBody.getOpt "nombre_usuario")]),
          ("profile", perfilRow u (reqBody.getOpt "nombre_usuario") r now p)]⟩
      ∧ (perfilRow u (reqBody.getOpt "nombre_usuario") r now p).getOpt "id" = u
      ∧ (perfilRow u (reqBody.getOpt "nombre_usuario") r now p).getOpt "id_preferencia" = p
      ∧ (perfilRow u (reqBody.getOpt "nombre_usuario") r now p).getOpt "id_rol" = r := by
  subst hu hp hr
  have hprefNN := JsVal.not_nullish_of_getOpt _ _ hprefRow
  have hrolNN := JsVal.not_nullish_of_getOpt _ _ hrolRow
  have hupNN : upsertResp.isNullish = false := by
    apply JsVal.not_nullish_of_getOpt _ "data"
    rw [hrow]
    rfl
  have hcond := register_fields_present reqBody e hemail he hpassword hnombre hcp hcr
  refine ⟨?_, rfl, rfl, rfl⟩
  unfold registerController runHandler
  simp only [registerBody, JsVal.get_or_empty, Eff.bind_def, Eff.andThen_ofExcept_ok_apply,
    Eff.pure_def, hcond, if_false, Bool.false_eq_true]
  simp only [hemail, callTrim, Eff.andThen_ofExcept_ok_apply]
  rw [Eff.andThen_call_ok _ _ _ _ _ _ hcreate]
  simp only [hcreated, Eff.andThen_ofExcept_ok_apply, hid, Bool.not_true, if_false,
    Bool.false_eq_true]
  rw [Eff.andThen_call_ok _ _ _ _ _ _ hpref]
  simp only [JsVal.get_of_not_nullish _ _ hprefNN, JsVal.get_of_not_nullish _ _ hprefRow,
    Eff.andThen_ofExcept_ok_apply]
  rw [Eff.andThen_call_ok _ _ _ _ _ _ hrol]
  simp only [JsVal.get_of_not_nullish _ _ hrolNN, JsVal.get_of_not_nullish _ _ hrolRow,
    Eff.andThen_ofExcept_ok_apply]
  rw [Eff.andThen_call_ok _ _ _ _ _ _ hupsert]
  simp only [JsVal.get_of_not_nullish _ _ hupNN, Eff.andThen_ofExcept_ok_apply, hok, if_false,
    Bool.false_eq_true, Eff.ret_apply, hrow]
  rfl

/-- C7, the handler at a preference code without a row: the lookup answers
data = null, reading `id_preferencia` of null throws, and the `catch` answers 500
"Error interno" with the text of the TypeError, which does not name the code
NO-SUCH-CODE; no upsert is issued, and the roles lookup is not issued either. -/
theorem missing_code_crashes :
    missingCodeRun.1 =
        ⟨500, .obj [("ok", .bool false), ("message", .str "Error interno"),
          ("detail", .str
            "TypeError: Cannot read properties of null (reading \x27id_preferencia\x27)")]⟩
      ∧ missingCodeRun.1.body.includes "NO-SUCH-CODE" = false
      ∧ missingCodeRun.2.calls =
        [.createUser "ana@example.com" (.str "secret") (.str "Ana"),
          .selectSingle "preferencias" "id_preferencia" (.str "NO-SUCH-CODE")] := by
  refine ⟨rfl, ?_, rfl⟩
  decide

/-- C10, counterexample. The shape resp.data.user carries the id 9b2f-identity, but
resp.user is an object without id: the handler takes resp.user, finds no id, answers
500 and issues no upsert. -/
theorem shadowed_id_rejected :
    (shapeIds (.obj [("user", .obj []),
        ("data", .obj [("user", .obj [("id", .str "9b2f-identity")])])])).any
        (fun v => !v.isNullish) = true
      ∧ shadowedIdRun.1.status = 500
      ∧ shadowedIdRun.2.calls = [.createUser "ana@example.com" (.str "secret") (.str "Ana")] := by
  refine ⟨?_, rfl, rfl⟩
  decide

/-- C1. When one of email, password, nombre_usuario, codigo_preferencia,
codigo_rol is missing from the request body (absent, null or the empty string),
registerController answers 400 with ok = false, issues no remote call at all and
leaves the provider as it was. -/
theorem register_missing_field {σ : Type} (B : Builtins) (supa : Supa σ) (now : String)
    (reqBody : JsVal) (s : σ) (h : ∃ k ∈ requiredFields, FieldMissing reqBody k) :
    (registerController B supa now reqBody s).1.status = 400
      ∧ (registerController B supa now reqBody s).1.body.getOpt "ok" = .bool false
      ∧ (registerController B supa now reqBody s).2.calls = []
      ∧ (registerController B supa now reqBody s).2.state = s := by
  obtain ⟨k, hk, hm⟩ := h
  have hm := hm.not_truthy
  simp only [registerController, registerBody, JsVal.get_or_empty, Eff.bind_def,
    Eff.andThen_ofExcept_ok, Eff.pure_def]
  rw [if_pos]
  · simp [runHandler, Eff.ret, JsVal.getOpt, JsVal.own, List.lookup]
  · simp [requiredFields] at hk
    rcases hk with rfl | rfl | rfl | rfl | rfl <;> simp [hm]

/-- C1, witness: a body whose codigo_rol is the empty string. -/
theorem register_missing_field_witness :
    (∃ k ∈ requiredFields, FieldMissing (registration "ana@example.com" "secret" "Ana" "VEG" "") k)
      ∧ (registerController asciiBuiltins
          (registerSupa (createdIdentity "9b2f-identity") .null .null (fun _ => .null))
          "2025-01-01T00:00:00.000Z" (registration "ana@example.com" "secret" "Ana" "VEG" "")
          ()).2.calls = [] :=
  ⟨⟨"codigo_rol", by decide, Or.inr (Or.inr rfl)⟩,
    (register_missing_field asciiBuiltins
      (registerSupa (createdIdentity "9b2f-identity") .null .null (fun _ => .null))
      "2025-01-01T00:00:00.000Z" (registration "ana@example.com" "secret" "Ana" "VEG" "") ()
      ⟨"codigo_rol", by decide, Or.inr (Or.inr rfl)⟩).2.2.1⟩

/-- C2. For a login whose email and password read as the non-empty strings e and p,
when signInWithPassword answers with an error whose message is the string msg,
loginController answers 401 with ok = false, the raw msg unchanged as detail,
and the message picked in this order: msg contains "invalid" (case-insensitive),
"Credenciales inválidas"; else msg contains "confirm", "Email no confirmado"; else
msg matches the not-found / does-not-exist pattern, "Usuario no existe"; else "No se
pudo iniciar sesión". "Invalid login credentials", "Email not confirmed" and "User
not found" fall in the first three. -/
theorem login_error_classification {σ : Type} (B : Builtins) (supa : Supa σ)
    (reqBody : JsVal) (s s1 : σ) (e p msg : String) (resp : JsVal)
    (hemail : ((reqBody.getOpt "email").orElse (.str "")).callToString = .ok e) (he : e ≠ "")
    (hpass : ((reqBody.getOpt "password").orElse (.str "")).callToString = .ok p) (hp : p ≠ "")
    (hresp : supa.respond s (.signInWithPassword (B.toLowerCase (B.trim e)) p) = (.ok resp, s1))
    (herr : (resp.getOpt "error").truthy = true)
    (hmsg : (resp.getOpt "error").getOpt "message" = .str msg) :
    loginController B supa reqBody s =
        (⟨401, .obj [("ok", .bool false), ("message", .str (friendly msg)),
            ("detail", .str msg),
            ("code", (((resp.getOpt "error").getOpt "status").orElse
              ((resp.getOpt "error").getOpt "error")).orElse (.str ""))]⟩,
          ⟨s1, [.signInWithPassword (B.toLowerCase (B.trim e)) p]⟩)
      ∧ (ContainsIgnoringCase "invalid" msg → friendly msg = "Credenciales inválidas")
      ∧ (¬ ContainsIgnoringCase "invalid" msg → ContainsIgnoringCase "confirm" msg →
          friendly msg = "Email no confirmado")
      ∧ (¬ ContainsIgnoringCase "invalid" msg → ¬ ContainsIgnoringCase "confirm" msg →
          NotFoundOrExist msg → friendly msg = "Usuario no existe")
      ∧ (¬ ContainsIgnoringCase "invalid" msg → ¬ ContainsIgnoringCase "confirm" msg →
          ¬ NotFoundOrExist msg → friendly msg = "No se pudo iniciar sesión")
      ∧ friendly "Invalid login credentials" = "Credenciales inválidas"
      ∧ friendly "Email not confirmed" = "Email no confirmado"
      ∧ friendly "User not found" = "Usuario no existe" := by
  obtain ⟨h1, h2, h3, h4⟩ := friendly_spec msg
  exact ⟨login_provider_error B supa reqBody s s1 e p msg resp hemail he hpass hp hresp herr
    hmsg, h1, h2, h3, h4, by decide, by decide, by decide⟩

/-- C2, witness: the provider rejects the credentials. -/
theorem login_error_classification_witness :
    loginController asciiBuiltins (failingSignIn "Invalid login credentials")
        (.obj [("email", .str " Ana@Example.com "), ("password", .str "secret")]) ()
      = (⟨401, .obj [("ok", .bool false), ("message", .str "Credenciales inválidas"),
            ("detail", .str "Invalid login credentials"), ("code", .num 400)]⟩,
          ⟨(), [.signInWithPassword "ana@example.com" "secret"]⟩) :=
  (login_error_classification asciiBuiltins (failingSignIn "Invalid login credentials")
    (.obj [("email", .str " Ana@Example.com "), ("password", .str "secret")]) () ()
    " Ana@Example.com " "secret" "Invalid login credentials" _ rfl (by decide) rfl (by decide)
    rfl rfl rfl).1

/-- C8, witness: a registration whose email has upper-case letters and surrounding
blanks; the profile comes back as it was given. -/
theorem register_success_witness :
    (registerController asciiBuiltins
        (registerSupa (createdIdentity "9b2f-identity") prefRow rolRow
          (fun row => dataError row .null))
        "2025-01-01T00:00:00.000Z"
        (registration "  Ana@Example.COM " "secret" "Ana" "VEG" "USR") ()).1
      = ⟨201, .obj [("ok", .bool true), ("message", .str "Usuario creado correctamente"),
          ("user", .obj [("id", .str "9b2f-identity"), ("email", .str "Ana@Example.COM"),
            ("nombre_usuario", .str "Ana")]),
          ("profile", .obj [("id", .str "9b2f-identity"), ("nombre_usuario", .str "Ana"),
            ("id_rol", .num 2), ("fecha_creacion", .str "2025-01-01T00:00:00.000Z"),
            ("id_preferencia", .num 3)])]⟩ :=
  (register_success asciiBuiltins
    (registerSupa (createdIdentity "9b2f-identity") prefRow rolRow
      (fun row => dataError row .null))
    "2025-01-01T00:00:00.000Z"
    (registration "  Ana@Example.COM " "secret" "Ana" "VEG" "USR") () () () () ()
    "  Ana@Example.COM " (createdIdentity "9b2f-identity") (.obj [("id", .str "9b2f-identity")])
    prefRow rolRow
    (dataError (perfilRow (.str "9b2f-identity") (.str "Ana") (.num 2)
      "2025-01-01T00:00:00.000Z" (.num 3)) .null)
    (.str "9b2f-identity") (.num 3) (.num 2)
    rfl (by decide) rfl rfl rfl rfl rfl rfl rfl rfl rfl rfl rfl rfl rfl rfl rfl rfl rfl).1

/-- C10, witness: a createUser answer of supabase-js v2 with a new identity; the
handler goes on to the lookups and the 201 response returns the id. -/
theorem register_identity_id_witness :
    (userIdOf (.obj [("id", .str "9b2f-identity")])).truthy = true
      ∧ (∃ rest, (registerController asciiBuiltins
          (registerSupa (createdIdentity "9b2f-identity") prefRow rolRow
            (fun row => dataError row .null))
          "2025-01-01T00:00:00.000Z"
          (registration "ana@example.com" "secret" "Ana" "VEG" "USR") ()).2.calls
        = [.createUser "ana@example.com" (.str "secret") (.str "Ana"),
            .selectSingle "preferencias" "id_preferencia" (.str "VEG")] ++ rest)
      ∧ ((registerController asciiBuiltins
          (registerSupa (createdIdentity "9b2f-identity") prefRow rolRow
            (fun row => dataError row .null))
          "2025-01-01T00:00:00.000Z"
          (registration "ana@example.com" "secret" "Ana" "VEG" "USR") ()).1.status = 201 →
        ((registerController asciiBuiltins
          (registerSupa (createdIdentity "9b2f-identity") prefRow rolRow
            (fun row => dataError row .null))
          "2025-01-01T00:00:00.000Z"
          (registration "ana@example.com" "secret" "Ana" "VEG" "USR") ()).1.body.getOpt
            "user").getOpt "id" = .str "9b2f-identity") :=
  ⟨rfl,
    ((register_identity_id asciiBuiltins
      (registerSupa (createdIdentity "9b2f-identity") prefRow rolRow
        (fun row => dataError row .null))
      "2025-01-01T00:00:00.000Z"
      (registration "ana@example.com" "secret" "Ana" "VEG" "USR") () () "ana@example.com"
      (createdIdentity "9b2f-identity") rfl (by decide) rfl rfl rfl rfl rfl).2
      (.obj [("id", .str "9b2f-identity")]) rfl rfl).1,
    ((register_identity_id asciiBuiltins
      (registerSupa (createdIdentity "9b2f-identity") prefRow rolRow
        (fun row => dataError row .null))
      "2025-01-01T00:00:00.000Z"
      (registration "ana@example.com" "secret" "Ana" "VEG" "USR") () () "ana@example.com"
      (createdIdentity "9b2f-identity") rfl (by decide) rfl rfl rfl rfl rfl).2
      (.obj [("id", .str "9b2f-identity")]) rfl rfl).2.2⟩

end NutriApi
